import Mathlib

/-!
# Source Topology Discovery & Routing Engine — verification development

Shallow embedding of `lightning/mydump/loader.go` (package `mydump` of
tidb-lightning): the Classifier (`listFiles` / `shouldSkip`), the Rename
Resolver (`route`), the Topology Builder (`insertDB` / `insertTable` and the
three insertion phases of `setup`), the Ordering Pass (the two
`sort.SliceStable` calls), `GetSchema`, and the entry point
`NewMyDumpLoaderWithStore`.

External collaborators (storage enumeration, the path router built by
`NewFileRouter`, the filter predicates, the table router built by
`router.NewTableRouter`, and `ExportStatement`) are parameters of the
embedding, exactly as they are opaque dependencies of the Go file.

Go machine integers (`int64` sizes) are modelled as `Int`; the loader only
adds and compares sizes, and no claim depends on 64-bit wrap-around.
-/

namespace Mydump

/-- `filter.Table`: a (schema, table) identity. -/
structure Table where
  Schema : String
  Name : String
deriving DecidableEq, Repr

/-- Modelled from the spec: the file kinds produced by the Path Router
(`SourceType` is declared in a sibling file of the package that is not part
of the provided source).  The spec's declared kinds are database-schema,
table-schema and table-data; data files are further typed SQL/CSV/Parquet,
and unroutable inputs are ignored.  `Ignore` is the zero value. -/
inductive SourceType where
  | Ignore
  | SchemaSchema
  | TableSchema
  | SQL
  | CSV
  | Parquet
deriving DecidableEq, Repr

/-- Modelled from the spec: the compression codec attached by the Path
Router (declared outside the provided source; never inspected by the
loader). `plain` is the zero value. -/
inductive Compression where
  | plain
  | gzip
deriving DecidableEq, Repr

/-- `SourceFileMeta` from loader.go (the Go field `Type` is spelled `Type'`
because `Type` is a Lean keyword). -/
structure SourceFileMeta where
  Path : String
  Type' : SourceType
  Compression : Compression
  SortKey : String
deriving DecidableEq, Repr

/-- The Go zero value of `SourceFileMeta` (what `knownDBNames[k]` yields for
an absent key). -/
def SourceFileMeta.zero : SourceFileMeta :=
  { Path := "", Type' := .Ignore, Compression := .plain, SortKey := "" }

/-- `FileInfo` from loader.go. -/
structure FileInfo where
  TableName : Table
  FileMeta : SourceFileMeta
  Size : Int
deriving DecidableEq, Repr

/-- `MDTableMeta` from loader.go. -/
structure MDTableMeta where
  DB : String
  Name : String
  SchemaFile : FileInfo
  DataFiles : List FileInfo
  charSet : String
  TotalSize : Int
deriving DecidableEq, Repr

/-- `MDDatabaseMeta` from loader.go. -/
structure MDDatabaseMeta where
  Name : String
  SchemaFile : String
  Tables : List MDTableMeta
  charSet : String
deriving DecidableEq, Repr

/-! ## Stable sort (`sort.SliceStable`)

Go's `sort.SliceStable(s, less)` stably sorts `s` by the strict order
`less`.  We model it as a left fold that inserts each element after every
already-placed element it is not strictly smaller than — the canonical
stable insertion sort. -/

section StableSort

variable {α : Type} {κ : Type} [LinearOrder κ]

/-- Insert `x` before the first element it is strictly smaller than
(by key); later-arriving elements therefore land after their ties. -/
def insertByKey (key : α → κ) (x : α) : List α → List α
  | [] => [x]
  | y :: ys => if key x < key y then x :: y :: ys else y :: insertByKey key x ys

/-- Stable sort by `key`, processing the list left to right. -/
def stableSortBy (key : α → κ) (l : List α) : List α :=
  l.foldl (fun acc x => insertByKey key x acc) []

end StableSort

/-! ## Error taxonomy

One constructor per distinct error site of loader.go, carrying exactly the
data the Go error message interpolates.  `routeError` is the
`errors.Trace(err)` of a table-router error: the router's error value is
propagated unchanged, with nothing else attached. -/

inductive LoaderError where
  /-- `errors.Annotatef(err, "apply file routing on file '%s' failed", path)` -/
  | listError (path msg : String)
  /-- `errors.New("missing {schema}-schema-create.sql")` -/
  | missingDBSchemas
  /-- `"invalid database schema file, duplicated item - %s"` -/
  | duplicateDBSchema (path : String)
  /-- `"invalid table schema file, cannot find db '%s' - %s"` -/
  | missingDBForTableSchema (schema path : String)
  /-- `"invalid table schema file, duplicated item - %s"` -/
  | duplicateTableSchema (path : String)
  /-- `"invalid data file, miss host db '%s' - %s"` -/
  | missingDBForData (schema path : String)
  /-- `"invalid data file, miss host table '%s' - %s"` -/
  | missingTableForData (table path : String)
  /-- `errors.Trace(err)` of a Table Router error inside `route` -/
  | routeError (msg : String)
  /-- `"table route is deprecated, can't config both [routes] and [mydumper.files]"` -/
  | configConflict
  /-- `errors.Trace(err)` of a `router.NewTableRouter` failure -/
  | tableRouterBuildError (msg : String)
  /-- a `NewFileRouter` failure -/
  | fileRouterBuildError (msg : String)
deriving DecidableEq, Repr

/-- The spec's MissingDeclaration error class. -/
def isMissingDecl : LoaderError → Bool
  | .missingDBSchemas => true
  | .missingDBForTableSchema _ _ => true
  | .missingDBForData _ _ => true
  | .missingTableForData _ _ => true
  | _ => false

/-- The spec's DuplicateDeclaration error class. -/
def isDuplicate : LoaderError → Bool
  | .duplicateDBSchema _ => true
  | .duplicateTableSchema _ => true
  | _ => false

/-! ## Topology Builder (`insertDB`, `insertTable`, the phases of `setup`)

Go keeps `dbIndexMap`/`tableIndexMap` as accelerator maps whose entries
always agree with a positional scan of the authoritative ordered lists
(`loader.dbs`, `dbMeta.Tables`), which only ever grow by appending.  The
embedding performs the scan directly: `insertDB` walks the database list for
a name match and appends a fresh `MDDatabaseMeta` at the end when there is
none; `upsertTable` does the same at both levels and applies `f` to the
found-or-created table, modelling the Go caller's mutation of the returned
`*MDTableMeta` (`f = id` for table-schema files; for data files `f` appends
the file and adds its size). -/

/-- `mdLoaderSetup.insertDB`.  Returns the updated list and the `dbExists`
flag.  First writer wins for `SchemaFile`. -/
def insertDB (cs dbName path : String) : List MDDatabaseMeta → List MDDatabaseMeta × Bool
  | [] => ([{ Name := dbName, SchemaFile := path, Tables := [], charSet := cs }], false)
  | db :: rest =>
    if db.Name = dbName then (db :: rest, true)
    else
      let r := insertDB cs dbName path rest
      (db :: r.1, r.2)

/-- The fresh `MDTableMeta` allocated by `mdLoaderSetup.insertTable`. -/
def newTableMeta (cs : String) (fi : FileInfo) : MDTableMeta :=
  { DB := fi.TableName.Schema, Name := fi.TableName.Name, SchemaFile := fi,
    DataFiles := [], charSet := cs, TotalSize := 0 }

/-- Find the table named `fi.TableName.Name` in a database's table list and
apply `f` to it, or append `f` of a fresh table.  Second component is the
`tableExists` flag. -/
def findCreateTable (cs : String) (fi : FileInfo) (f : MDTableMeta → MDTableMeta) :
    List MDTableMeta → List MDTableMeta × Bool
  | [] => ([f (newTableMeta cs fi)], false)
  | tb :: rest =>
    if tb.Name = fi.TableName.Name then (f tb :: rest, true)
    else
      let r := findCreateTable cs fi f rest
      (tb :: r.1, r.2)

/-- `mdLoaderSetup.insertTable` followed by the caller's mutation `f` of the
returned table pointer.  Returns `(dbs, dbExists, tableExists)`. -/
def upsertTable (cs : String) (fi : FileInfo) (f : MDTableMeta → MDTableMeta) :
    List MDDatabaseMeta → List MDDatabaseMeta × Bool × Bool
  | [] =>
    let r := findCreateTable cs fi f []
    ([{ Name := fi.TableName.Schema, SchemaFile := "", Tables := r.1, charSet := cs }],
      false, r.2)
  | db :: rest =>
    if db.Name = fi.TableName.Schema then
      let r := findCreateTable cs fi f db.Tables
      ({ db with Tables := r.1 } :: rest, true, r.2)
    else
      let r := upsertTable cs fi f rest
      (db :: r.1, r.2)

/-- The `for _, fileInfo := range s.dbSchemas` loop of `setup`. -/
def insertDBSchemas (hasRouter : Bool) (cs : String) (dbs : List MDDatabaseMeta) :
    List FileInfo → Except LoaderError (List MDDatabaseMeta)
  | [] => .ok dbs
  | info :: rest =>
    let r := insertDB cs info.TableName.Schema info.FileMeta.Path dbs
    if r.2 && !hasRouter then .error (.duplicateDBSchema info.FileMeta.Path)
    else insertDBSchemas hasRouter cs r.1 rest

/-- The `for _, fileInfo := range s.tableSchemas` loop of `setup`. -/
def insertTableSchemas (hasRouter : Bool) (cs : String) (dbs : List MDDatabaseMeta) :
    List FileInfo → Except LoaderError (List MDDatabaseMeta)
  | [] => .ok dbs
  | info :: rest =>
    let r := upsertTable cs info id dbs
    if !r.2.1 then
      .error (.missingDBForTableSchema info.TableName.Schema info.FileMeta.Path)
    else if r.2.2 && !hasRouter then
      .error (.duplicateTableSchema info.FileMeta.Path)
    else insertTableSchemas hasRouter cs r.1 rest

/-- The dummy `FileInfo` built for a data file (`FileInfo{TableName: ...}`):
all other fields are Go zero values. -/
def dummyFileInfo (t : Table) : FileInfo :=
  { TableName := t, FileMeta := SourceFileMeta.zero, Size := 0 }

/-- The `for _, fileInfo := range s.tableDatas` loop of `setup`. -/
def insertTableDatas (noSchema : Bool) (cs : String) (dbs : List MDDatabaseMeta) :
    List FileInfo → Except LoaderError (List MDDatabaseMeta)
  | [] => .ok dbs
  | info :: rest =>
    let r := upsertTable cs (dummyFileInfo info.TableName)
      (fun tb => { tb with DataFiles := tb.DataFiles ++ [info],
                           TotalSize := tb.TotalSize + info.Size }) dbs
    if !noSchema && !r.2.1 then
      .error (.missingDBForData info.TableName.Schema info.FileMeta.Path)
    else if !noSchema && !r.2.2 then
      .error (.missingTableForData info.TableName.Name info.FileMeta.Path)
    else insertTableDatas noSchema cs r.1 rest

/-! ## Ordering Pass (the two `sort.SliceStable` calls at the end of `setup`) -/

/-- Stably sort one table's data files by ascending `SortKey`. -/
def sortTableFiles (tb : MDTableMeta) : MDTableMeta :=
  { tb with DataFiles := stableSortBy (fun fi => fi.FileMeta.SortKey) tb.DataFiles }

/-- Stably sort one database's tables by ascending `TotalSize`, then each
table's files by key. -/
def sortDatabase (db : MDDatabaseMeta) : MDDatabaseMeta :=
  { db with Tables := (stableSortBy (fun tb => tb.TotalSize) db.Tables).map sortTableFiles }

/-- The Ordering Pass over the whole topology. -/
def sortTopology (dbs : List MDDatabaseMeta) : List MDDatabaseMeta :=
  dbs.map sortDatabase

/-! ## `setup` assembled (the phases after `listFiles` and `route`) -/

/-- The schema-mode block of `setup`: require at least one database-schema
file, insert database schemas, then table schemas. -/
def schemaPhase (hasRouter : Bool) (cs : String) (a b : List FileInfo) :
    Except LoaderError (List MDDatabaseMeta) :=
  if a.isEmpty then .error .missingDBSchemas
  else
    match insertDBSchemas hasRouter cs [] a with
    | .error e => .error e
    | .ok d1 => insertTableSchemas hasRouter cs d1 b

/-- Lines 217–252 of loader.go: build the raw (insertion-ordered) topology
from the three routed buckets `a` (database schemas), `b` (table schemas),
`c` (data files). -/
def buildTopologyRaw (noSchema hasRouter : Bool) (cs : String) (a b c : List FileInfo) :
    Except LoaderError (List MDDatabaseMeta) :=
  match (if noSchema then Except.ok [] else schemaPhase hasRouter cs a b) with
  | .error e => .error e
  | .ok d => insertTableDatas noSchema cs d c

/-- Lines 217–268 of loader.go: the raw build followed by the Ordering Pass. -/
def buildTopology (noSchema hasRouter : Bool) (cs : String) (a b c : List FileInfo) :
    Except LoaderError (List MDDatabaseMeta) :=
  (buildTopologyRaw noSchema hasRouter cs a b c).map sortTopology

/-! ## Rename Resolver (`mdLoaderSetup.route`)

The Table Router (`router.Table` from tidb-tools) is an external
collaborator: a function from a (schema, table) identity to a routed
identity or an error.  Errors are plain payloads (`String`): `route`
propagates them through `errors.Trace`, which leaves the error value
unchanged. -/

abbrev Router := String → String → Except String (String × String)

/-- The local `dbInfo` struct of `route`. -/
structure DBInfo where
  fileMeta : SourceFileMeta
  count : Int
deriving DecidableEq, Repr

/-- `knownDBNames`, a Go map modelled as an association list (iteration
order is never used; keys stay unique because updates replace in place). -/
abbrev KnownMap := List (String × DBInfo)

def kmFind (m : KnownMap) (k : String) : Option DBInfo :=
  (m.find? (fun p => decide (p.1 = k))).map (fun p => p.2)

/-- Go map read: the zero `dbInfo` when the key is absent. -/
def kmGet (m : KnownMap) (k : String) : DBInfo :=
  (kmFind m k).getD { fileMeta := SourceFileMeta.zero, count := 0 }

/-- Go map write: replace in place, or append a fresh binding. -/
def kmSet (m : KnownMap) (k : String) (v : DBInfo) : KnownMap :=
  if (m.find? (fun p => decide (p.1 = k))).isSome then
    m.map (fun p => if p.1 = k then (k, v) else p)
  else m ++ [(k, v)]

/-- The two initialisation loops of `route`: every database-schema file
contributes its meta with refcount 1 (later duplicates overwrite), and
every table-schema file adds 1 to its schema's refcount. -/
def initKnown (a b : List FileInfo) : KnownMap :=
  let m1 := a.foldl
    (fun m info => kmSet m info.TableName.Schema { fileMeta := info.FileMeta, count := 1 }) []
  b.foldl
    (fun m info =>
      let d := kmGet m info.TableName.Schema
      kmSet m info.TableName.Schema { d with count := d.count + 1 }) m1

/-- The `run` closure of `route`, applied to one bucket: route each record,
do the refcount bookkeeping and database-schema synthesis on a schema
change, and rewrite the record's identity.  Returns the rewritten bucket,
the (possibly extended) database-schema bucket and the updated map. -/
def routeRun (r : Router) (dbSchemas : List FileInfo) (known : KnownMap) :
    List FileInfo → Except String (List FileInfo × List FileInfo × KnownMap)
  | [] => .ok ([], dbSchemas, known)
  | info :: rest =>
    match r info.TableName.Schema info.TableName.Name with
    | .error e => .error e
    | .ok (dbName, tableName) =>
      let next : List FileInfo × KnownMap :=
        if dbName = info.TableName.Schema then (dbSchemas, known)
        else
          let oldInfo := kmGet known info.TableName.Schema
          let oldInfo' : DBInfo := { oldInfo with count := oldInfo.count - 1 }
          let known1 := kmSet known info.TableName.Schema oldInfo'
          match kmFind known1 dbName with
          | some newInfo =>
            (dbSchemas, kmSet known1 dbName { newInfo with count := newInfo.count + 1 })
          | none =>
            (dbSchemas ++
                [{ TableName := { Schema := dbName, Name := "" },
                   FileMeta := oldInfo'.fileMeta, Size := 0 }],
              kmSet known1 dbName { fileMeta := oldInfo'.fileMeta, count := 1 })
      match routeRun r next.1 next.2 rest with
      | .error e => .error e
      | .ok (rest', ds, kn) =>
        .ok ({ TableName := { Schema := dbName, Name := tableName },
               FileMeta := info.FileMeta, Size := info.Size } :: rest', ds, kn)

/-- `mdLoaderSetup.route`: identity when no Table Router is configured;
otherwise run both passes sharing the map and the database-schema bucket,
then drop every database-schema record whose final refcount is not
positive. -/
def routeAll (router? : Option Router) (a b c : List FileInfo) :
    Except String (List FileInfo × List FileInfo × List FileInfo) :=
  match router? with
  | none => .ok (a, b, c)
  | some r =>
    match routeRun r a (initKnown a b) b with
    | .error e => .error e
    | .ok (b', a1, k1) =>
      match routeRun r a1 k1 c with
      | .error e => .error e
      | .ok (c', a2, k2) =>
        .ok (a2.filter (fun info => decide (0 < (kmGet k2 info.TableName.Schema).count)),
          b', c')

/-- `mdLoaderSetup.setup` from `route` onwards: route the buckets, then
build and order the topology.  A router error aborts with
`errors.Trace(err)` — the payload alone. -/
def mdSetup (noSchema : Bool) (router? : Option Router) (cs : String)
    (a b c : List FileInfo) : Except LoaderError (List MDDatabaseMeta) :=
  match routeAll router? a b c with
  | .error e => .error (.routeError e)
  | .ok (a', b', c') => buildTopology noSchema router?.isSome cs a' b' c'

/-! ## Classifier (`listFiles`, `MDLoader.shouldSkip`) -/

/-- The result record of the external Path Router (`FileRouter.Route`). -/
structure RouteResult where
  Schema : String
  Name : String
  Type' : SourceType
  Compression : Compression
  Key : String
deriving DecidableEq, Repr

/-- The external Path Router: `nil, nil` (skip) is `.ok none`. -/
abbrev FRouter := String → Except String (Option RouteResult)

/-- `MDLoader.shouldSkip`: schema inclusion for identities with empty table
name, table inclusion otherwise.  The filter predicates `matchSchema` /
`matchTable` are the external Name Filter. -/
def shouldSkip (matchSchema : String → Bool) (matchTable : String → String → Bool)
    (t : Table) : Bool :=
  if t.Name.length = 0 then !matchSchema t.Schema
  else !matchTable t.Schema t.Name

/-- The three ordered buckets produced by the Classifier. -/
structure Buckets where
  dbSchemas : List FileInfo
  tableSchemas : List FileInfo
  tableDatas : List FileInfo
deriving DecidableEq, Repr

/-- The candidate `FileInfo` record built by the `WalkDir` callback from a
`(path, size)` entry and a Path Router result. -/
def mkFileInfo (entry : String × Int) (res : RouteResult) : FileInfo :=
  { TableName := { Schema := res.Schema, Name := res.Name },
    FileMeta := { Path := entry.1, Type' := res.Type',
                  Compression := res.Compression, SortKey := res.Key },
    Size := entry.2 }

/-- The body of the `WalkDir` callback in `listFiles` for one
`(path, size)` entry. -/
def listFilesStep (fr : FRouter) (ms : String → Bool) (mt : String → String → Bool)
    (bk : Buckets) (entry : String × Int) : Except LoaderError Buckets :=
  match fr entry.1 with
  | .error e => .error (.listError entry.1 e)
  | .ok none => .ok bk
  | .ok (some res) =>
    if shouldSkip ms mt (mkFileInfo entry res).TableName then .ok bk
    else
      match res.Type' with
      | .SchemaSchema => .ok { bk with dbSchemas := bk.dbSchemas ++ [mkFileInfo entry res] }
      | .TableSchema => .ok { bk with tableSchemas := bk.tableSchemas ++ [mkFileInfo entry res] }
      | .SQL => .ok { bk with tableDatas := bk.tableDatas ++ [mkFileInfo entry res] }
      | .CSV => .ok { bk with tableDatas := bk.tableDatas ++ [mkFileInfo entry res] }
      | .Parquet => .ok { bk with tableDatas := bk.tableDatas ++ [mkFileInfo entry res] }
      | .Ignore => .ok bk

/-- `mdLoaderSetup.listFiles`: fold the walk stream (already in
lexicographic order, per the Enumerator contract) through the callback;
the first callback error aborts the walk. -/
def listFiles (fr : FRouter) (ms : String → Bool) (mt : String → String → Bool) :
    List (String × Int) → Buckets → Except LoaderError Buckets
  | [], bk => .ok bk
  | entry :: rest, bk =>
    match listFilesStep fr ms mt bk entry with
    | .error e => .error e
    | .ok bk' => listFiles fr ms mt rest bk'

/-! ## `GetSchema` and the loader entry point -/

/-- `MDTableMeta.GetSchema`: on-demand schema-text extraction via the
external `ExportStatement`; a failure is logged and yields `""`. -/
def GetSchema (exportStatement : FileInfo → String → Except String String)
    (m : MDTableMeta) : String :=
  match exportStatement m.SchemaFile m.charSet with
  | .error _ => ""
  | .ok s => s

/-- `NewMyDumpLoaderWithStore`.  The external constructors for the Table
Router (`router.NewTableRouter`) and the Path Router (`NewFileRouter`) and
the Name Filter predicates (already wrapped for case sensitivity) are
parameters; `walk` is the store's enumeration stream. -/
def newMyDumpLoaderWithStore (routes fileRouters : List String)
    (defaultFileRules : Bool) (defaultRules : List String)
    (mkTableRouter : List String → Except String Router)
    (mkFileRouter : List String → Except String FRouter)
    (noSchema : Bool) (cs : String)
    (ms : String → Bool) (mt : String → String → Bool)
    (walk : List (String × Int)) : Except LoaderError (List MDDatabaseMeta) :=
  if 0 < routes.length ∧ 0 < fileRouters.length then .error .configConflict
  else
    match (if 0 < routes.length then (mkTableRouter routes).map some
           else .ok none) with
    | .error e => .error (.tableRouterBuildError e)
    | .ok router? =>
      match mkFileRouter (if defaultFileRules then fileRouters ++ defaultRules
                          else fileRouters) with
      | .error e => .error (.fileRouterBuildError e)
      | .ok fr =>
        match listFiles fr ms mt walk { dbSchemas := [], tableSchemas := [], tableDatas := [] } with
        | .error e => .error e
        | .ok bk => mdSetup noSchema router? cs bk.dbSchemas bk.tableSchemas bk.tableDatas

/-! ## Predicates used by the statements -/

/-- All bucket members passed the Name Filter. -/
def cleanBuckets (ms : String → Bool) (mt : String → String → Bool) (bk : Buckets) : Prop :=
  (∀ fi ∈ bk.dbSchemas, shouldSkip ms mt fi.TableName = false) ∧
  (∀ fi ∈ bk.tableSchemas, shouldSkip ms mt fi.TableName = false) ∧
  (∀ fi ∈ bk.tableDatas, shouldSkip ms mt fi.TableName = false)

/-- A table whose schema declaration is the dummy `FileInfo` of a data
file: zero `SourceFileMeta` (empty path) and zero size. -/
def zeroSchemaTable (tb : MDTableMeta) : Prop :=
  tb.SchemaFile.FileMeta = SourceFileMeta.zero ∧ tb.SchemaFile.Size = 0

/-- A database created by data files alone: empty declaration path, and all
its tables have dummy schema declarations. -/
def dataOnlyDB (db : MDDatabaseMeta) : Prop :=
  db.SchemaFile = "" ∧ ∀ tb ∈ db.Tables, zeroSchemaTable tb

/-! ## Concrete inputs and outputs for witness and counterexample theorems -/

def exData1 : FileInfo :=
  { TableName := { Schema := "db", Name := "t1" },
    FileMeta := { Path := "db.t1.sql", Type' := .SQL, Compression := .plain, SortKey := "1" },
    Size := 5 }

def exData2 : FileInfo :=
  { TableName := { Schema := "db", Name := "t2" },
    FileMeta := { Path := "db.t2.sql", Type' := .SQL, Compression := .plain, SortKey := "1" },
    Size := 3 }

def exTable1 : MDTableMeta :=
  { DB := "db", Name := "t1", SchemaFile := dummyFileInfo ⟨"db", "t1"⟩,
    DataFiles := [exData1], charSet := "utf8", TotalSize := 5 }

def exTable2 : MDTableMeta :=
  { DB := "db", Name := "t2", SchemaFile := dummyFileInfo ⟨"db", "t2"⟩,
    DataFiles := [exData2], charSet := "utf8", TotalSize := 3 }

/-- The ordered topology of the schema-less build from `exData1, exData2`:
the smaller table `t2` first. -/
def exTopo5 : List MDDatabaseMeta :=
  [{ Name := "db", SchemaFile := "", Tables := [exTable2, exTable1], charSet := "utf8" }]

def exData3 : FileInfo :=
  { TableName := { Schema := "db", Name := "t" },
    FileMeta := { Path := "db.t.sql", Type' := .SQL, Compression := .plain, SortKey := "" },
    Size := 9 }

def exTable3 : MDTableMeta :=
  { DB := "db", Name := "t", SchemaFile := dummyFileInfo ⟨"db", "t"⟩,
    DataFiles := [exData3], charSet := "utf8", TotalSize := 9 }

def exTopo10 : List MDDatabaseMeta :=
  [{ Name := "db", SchemaFile := "", Tables := [exTable3], charSet := "utf8" }]

/-- A database-schema declaration record for schema `A`. -/
def dbDecl (A : String) (m : SourceFileMeta) (z : Int) : FileInfo :=
  { TableName := { Schema := A, Name := "" }, FileMeta := m, Size := z }

/-- A table-schema declaration record for table `A.t`. -/
def tblDecl (A t : String) (m : SourceFileMeta) (z : Int) : FileInfo :=
  { TableName := { Schema := A, Name := t }, FileMeta := m, Size := z }

/-- A table-data record for table `A.t`. -/
def dataFile (A t : String) (m : SourceFileMeta) (z : Int) : FileInfo :=
  { TableName := { Schema := A, Name := t }, FileMeta := m, Size := z }

/-- A Table Router that always fails with one fixed payload. -/
def exBadRouter : Router := fun _ _ => .error "routing failed"

/-- The renaming router of the C1 scenario: `a.t ↦ b.t`, all else fixed. -/
def exRouterAB : Router :=
  fun s n => .ok (if s = "a" && n = "t" then ("b", n) else (s, n))

def exMetaDBA : SourceFileMeta :=
  { Path := "a-schema-create.sql", Type' := .SchemaSchema, Compression := .plain, SortKey := "" }

def exMetaTSA : SourceFileMeta :=
  { Path := "a.t-schema.sql", Type' := .TableSchema, Compression := .plain, SortKey := "" }

def exMetaDataA : SourceFileMeta :=
  { Path := "a.t.sql", Type' := .SQL, Compression := .plain, SortKey := "" }

def exMetaTS1 : SourceFileMeta :=
  { Path := "db1.t1-schema.sql", Type' := .TableSchema, Compression := .plain, SortKey := "" }

def exMetaTS2 : SourceFileMeta :=
  { Path := "db2.t2-schema.sql", Type' := .TableSchema, Compression := .plain, SortKey := "" }

/-! ## Declaration-presence predicates (for the missing-declaration claim) -/

/-- Whether the topology under construction contains a database named `n`
(the `dbExists` notion of `insertDB`). -/
def hasDB (dbs : List MDDatabaseMeta) (n : String) : Bool :=
  dbs.any (fun db => decide (db.Name = n))

/-- Whether the topology under construction contains the table `u`
(the `tableExists` notion of `insertTable`: look in the first database
named `u.Schema`). -/
def hasTable (dbs : List MDDatabaseMeta) (u : Table) : Bool :=
  match dbs.find? (fun db => decide (db.Name = u.Schema)) with
  | some db => db.Tables.any (fun tb => decide (tb.Name = u.Name))
  | none => false

/-- The schema names declared by a database-schema bucket. -/
def declaredSchemas (a : List FileInfo) : List String :=
  a.map (fun fi => fi.TableName.Schema)

/-- The table identities declared by a table-schema bucket. -/
def declaredTables (b : List FileInfo) : List Table :=
  b.map (fun fi => fi.TableName)

/-! # Theorems

Everything from here on is a lemma or a claim theorem about the
definitions above. -/

section StableSortLemmas

variable {α : Type} {κ : Type} [LinearOrder κ]

theorem mem_insertByKey (key : α → κ) (x z : α) (l : List α) :
    z ∈ insertByKey key x l ↔ z = x ∨ z ∈ l := by
  induction l with
  | nil => simp [insertByKey]
  | cons y ys ih =>
    by_cases h : key x < key y
    · simp [insertByKey, h]
    · simp only [insertByKey, if_neg h, List.mem_cons, ih]
      tauto

theorem insertByKey_sorted (key : α → κ) (x : α) (l : List α)
    (h : l.Pairwise (fun a b => key a ≤ key b)) :
    (insertByKey key x l).Pairwise (fun a b => key a ≤ key b) := by
  induction l with
  | nil => simp [insertByKey]
  | cons y ys ih =>
    rw [List.pairwise_cons] at h
    by_cases hxy : key x < key y
    · rw [insertByKey, if_pos hxy, List.pairwise_cons]
      constructor
      · intro z hz
        rcases List.mem_cons.mp hz with hz | hz
        · exact le_of_lt (hz ▸ hxy)
        · exact le_trans (le_of_lt hxy) (h.1 z hz)
      · exact List.pairwise_cons.mpr h
    · rw [insertByKey, if_neg hxy, List.pairwise_cons]
      constructor
      · intro z hz
        rcases (mem_insertByKey key x z ys).mp hz with hz | hz
        · exact hz ▸ le_of_not_lt hxy
        · exact h.1 z hz
      · exact ih h.2

theorem insertByKey_append (key : α → κ) (x : α) (l : List α)
    (h : ∀ y ∈ l, ¬ key x < key y) :
    insertByKey key x l = l ++ [x] := by
  induction l with
  | nil => rfl
  | cons y ys ih =>
    rw [insertByKey, if_neg (h y (List.mem_cons_self y ys))]
    simp only [List.cons_append, List.cons.injEq, true_and]
    exact ih (fun z hz => h z (List.mem_cons_of_mem y hz))

theorem insertByKey_filter_ne (key : α → κ) (x : α) (l : List α)
    (p : α → Bool) (hp : p x = false) :
    (insertByKey key x l).filter p = l.filter p := by
  induction l with
  | nil => simp [insertByKey, hp]
  | cons y ys ih =>
    by_cases hxy : key x < key y
    · rw [insertByKey, if_pos hxy]
      simp [List.filter_cons, hp]
    · rw [insertByKey, if_neg hxy]
      simp only [List.filter_cons]
      cases p y <;> simp [ih]

theorem insertByKey_filter_eq (key : α → κ) (x : α) (l : List α)
    (hl : l.Pairwise (fun a b => key a ≤ key b))
    (p : α → Bool) (hp : p x = true)
    (hmono : ∀ z, key x < key z → p z = false) :
    (insertByKey key x l).filter p = l.filter p ++ [x] := by
  induction l with
  | nil => simp [insertByKey, hp]
  | cons y ys ih =>
    rw [List.pairwise_cons] at hl
    by_cases hxy : key x < key y
    · rw [insertByKey, if_pos hxy]
      have hy : p y = false := hmono y hxy
      have hys : List.filter p ys = [] := by
        apply List.filter_eq_nil_iff.mpr
        intro z hz
        simp [hmono z (lt_of_lt_of_le hxy (hl.1 z hz))]
      simp [List.filter_cons, hp, hy, hys]
    · rw [insertByKey, if_neg hxy]
      simp only [List.filter_cons]
      cases hpy : p y <;> simp [ih hl.2]

theorem foldl_insertByKey_sorted (key : α → κ) (l : List α) :
    ∀ acc : List α, acc.Pairwise (fun a b => key a ≤ key b) →
      (l.foldl (fun acc x => insertByKey key x acc) acc).Pairwise
        (fun a b => key a ≤ key b) := by
  induction l with
  | nil => intro acc h; simpa using h
  | cons x xs ih =>
    intro acc h
    simpa using ih (insertByKey key x acc) (insertByKey_sorted key x acc h)

theorem stableSortBy_sorted (key : α → κ) (l : List α) :
    (stableSortBy key l).Pairwise (fun a b => key a ≤ key b) :=
  foldl_insertByKey_sorted key l [] (List.Pairwise.nil)

theorem foldl_insertByKey_filter (key : α → κ) (l : List α) (k : κ) :
    ∀ acc : List α, acc.Pairwise (fun a b => key a ≤ key b) →
      (l.foldl (fun acc x => insertByKey key x acc) acc).filter
          (fun a => decide (key a = k)) =
        acc.filter (fun a => decide (key a = k)) ++
          l.filter (fun a => decide (key a = k)) := by
  induction l with
  | nil => intro acc _; simp
  | cons x xs ih =>
    intro acc hacc
    have step := ih (insertByKey key x acc) (insertByKey_sorted key x acc hacc)
    simp only [List.foldl_cons] at step ⊢
    rw [step]
    by_cases hx : key x = k
    · have : (insertByKey key x acc).filter (fun a => decide (key a = k)) =
          acc.filter (fun a => decide (key a = k)) ++ [x] := by
        apply insertByKey_filter_eq key x acc hacc _ (by simp [hx])
        intro z hz
        have : k < key z := hx ▸ hz
        simp [ne_of_gt this]
      rw [this, List.filter_cons, if_pos (by simp [hx])]
      simp
    · have : (insertByKey key x acc).filter (fun a => decide (key a = k)) =
          acc.filter (fun a => decide (key a = k)) := by
        apply insertByKey_filter_ne key x acc _ (by simp [hx])
      rw [this, List.filter_cons, if_neg (by simp [hx])]

/-- Stability: the subsequence of elements in any single key class is
exactly the original subsequence — ties keep their insertion order. -/
theorem stableSortBy_stable (key : α → κ) (l : List α) (k : κ) :
    (stableSortBy key l).filter (fun a => decide (key a = k)) =
      l.filter (fun a => decide (key a = k)) := by
  simpa using foldl_insertByKey_filter key l k [] List.Pairwise.nil

theorem foldl_insertByKey_of_sorted (key : α → κ) (l : List α) :
    ∀ acc : List α, (acc ++ l).Pairwise (fun a b => key a ≤ key b) →
      l.foldl (fun acc x => insertByKey key x acc) acc = acc ++ l := by
  induction l with
  | nil => intro acc _; simp
  | cons x xs ih =>
    intro acc h
    have hins : insertByKey key x acc = acc ++ [x] := by
      apply insertByKey_append
      intro y hy
      have : key y ≤ key x := by
        rw [List.pairwise_append] at h
        exact h.2.2 y hy x (List.mem_cons_self x xs)
      exact not_lt_of_le this
    simp only [List.foldl_cons, hins]
    have h' : ((acc ++ [x]) ++ xs).Pairwise (fun a b => key a ≤ key b) := by
      simpa [List.append_assoc] using h
    rw [ih (acc ++ [x]) h']
    simp

/-- A list already sorted by `key` is a fixed point of the stable sort. -/
theorem stableSortBy_of_sorted (key : α → κ) (l : List α)
    (h : l.Pairwise (fun a b => key a ≤ key b)) :
    stableSortBy key l = l := by
  simpa using foldl_insertByKey_of_sorted key l [] (by simpa using h)

theorem stableSortBy_idem (key : α → κ) (l : List α) :
    stableSortBy key (stableSortBy key l) = stableSortBy key l :=
  stableSortBy_of_sorted key _ (stableSortBy_sorted key l)

theorem foldl_insertByKey_mem (key : α → κ) (l : List α) (z : α) :
    ∀ acc : List α,
      (z ∈ l.foldl (fun acc x => insertByKey key x acc) acc ↔ z ∈ acc ∨ z ∈ l) := by
  induction l with
  | nil => intro acc; simp
  | cons x xs ih =>
    intro acc
    simp only [List.foldl_cons]
    rw [ih (insertByKey key x acc), mem_insertByKey]
    simp
    tauto

theorem mem_stableSortBy (key : α → κ) (l : List α) (z : α) :
    z ∈ stableSortBy key l ↔ z ∈ l := by
  simpa using foldl_insertByKey_mem key l z []

end StableSortLemmas

/-! ## Ordering Pass lemmas and the claims about it -/

theorem sortTableFiles_TotalSize (tb : MDTableMeta) :
    (sortTableFiles tb).TotalSize = tb.TotalSize := rfl

theorem sortTableFiles_id_pair (tb : MDTableMeta) :
    ((sortTableFiles tb).DB, (sortTableFiles tb).Name) = (tb.DB, tb.Name) := rfl

theorem sortTableFiles_idem (tb : MDTableMeta) :
    sortTableFiles (sortTableFiles tb) = sortTableFiles tb := by
  simp [sortTableFiles, stableSortBy_idem]

theorem sortDatabase_tables_sorted (db : MDDatabaseMeta) :
    (sortDatabase db).Tables.Pairwise (fun x y => x.TotalSize ≤ y.TotalSize) := by
  unfold sortDatabase
  rw [List.pairwise_map]
  exact stableSortBy_sorted (fun tb => tb.TotalSize) db.Tables

theorem sortDatabase_files_sorted (db : MDDatabaseMeta) :
    ∀ tb ∈ (sortDatabase db).Tables,
      tb.DataFiles.Pairwise (fun x y => x.FileMeta.SortKey ≤ y.FileMeta.SortKey) := by
  intro tb htb
  unfold sortDatabase at htb
  simp only [List.mem_map] at htb
  obtain ⟨tb0, _, rfl⟩ := htb
  exact stableSortBy_sorted (fun fi => fi.FileMeta.SortKey) tb0.DataFiles

theorem sortDatabase_tables_stable (db : MDDatabaseMeta) (z : Int) :
    ((sortDatabase db).Tables.filter (fun tb => decide (tb.TotalSize = z))).map
        (fun tb => (tb.DB, tb.Name)) =
      (db.Tables.filter (fun tb => decide (tb.TotalSize = z))).map
        (fun tb => (tb.DB, tb.Name)) := by
  unfold sortDatabase
  rw [List.filter_map, List.map_map]
  have hcomp : ((fun tb : MDTableMeta => decide (tb.TotalSize = z)) ∘ sortTableFiles) =
      (fun tb : MDTableMeta => decide (tb.TotalSize = z)) := by
    funext tb
    simp [sortTableFiles]
  have hpair : ((fun tb : MDTableMeta => (tb.DB, tb.Name)) ∘ sortTableFiles) =
      (fun tb : MDTableMeta => (tb.DB, tb.Name)) := by
    funext tb
    simp [sortTableFiles]
  rw [hcomp, hpair, stableSortBy_stable]

theorem sortDatabase_idem (db : MDDatabaseMeta) :
    sortDatabase (sortDatabase db) = sortDatabase db := by
  unfold sortDatabase
  have hsorted : ((stableSortBy (fun tb => tb.TotalSize) db.Tables).map
      sortTableFiles).Pairwise (fun x y => x.TotalSize ≤ y.TotalSize) := by
    rw [List.pairwise_map]
    exact stableSortBy_sorted (fun tb => tb.TotalSize) db.Tables
  rw [stableSortBy_of_sorted _ _ hsorted, List.map_map]
  simp only [MDDatabaseMeta.mk.injEq, and_true, true_and]
  apply List.map_congr_left
  intro tb _
  exact sortTableFiles_idem tb

/-- C6 — **Sort idempotence**: the Ordering Pass is idempotent: applying the
stable table-by-size sort and file-by-key sort twice yields the same
topology as applying them once, for every topology. -/
theorem ordering_pass_idempotent (dbs : List MDDatabaseMeta) :
    sortTopology (sortTopology dbs) = sortTopology dbs := by
  unfold sortTopology
  rw [List.map_map]
  apply List.map_congr_left
  intro db _
  exact sortDatabase_idem db

/-- C5 — **Size and key ordering with stability**: every successful build is
the Ordering Pass applied to the raw insertion-ordered topology; within
every database the table order is non-decreasing by aggregate size, within
every table the file order is non-decreasing by ordering key, and in both
sorts the subsequence of any tie class (same size, resp. same key) is
exactly its original insertion-ordered subsequence. -/
theorem build_ordering_and_stability (noSchema hasRouter : Bool) (cs : String)
    (a b c : List FileInfo) (topo : List MDDatabaseMeta)
    (h : buildTopology noSchema hasRouter cs a b c = .ok topo) :
    ∃ raw, buildTopologyRaw noSchema hasRouter cs a b c = .ok raw ∧
      topo = sortTopology raw ∧
      (∀ db ∈ topo,
        db.Tables.Pairwise (fun x y => x.TotalSize ≤ y.TotalSize) ∧
        ∀ tb ∈ db.Tables,
          tb.DataFiles.Pairwise (fun x y => x.FileMeta.SortKey ≤ y.FileMeta.SortKey)) ∧
      (∀ db ∈ raw, ∀ z : Int,
        ((sortDatabase db).Tables.filter (fun tb => decide (tb.TotalSize = z))).map
            (fun tb => (tb.DB, tb.Name)) =
          (db.Tables.filter (fun tb => decide (tb.TotalSize = z))).map
            (fun tb => (tb.DB, tb.Name))) ∧
      (∀ db ∈ raw, ∀ tb ∈ db.Tables, ∀ k : String,
        (stableSortBy (fun fi => fi.FileMeta.SortKey) tb.DataFiles).filter
            (fun fi => decide (fi.FileMeta.SortKey = k)) =
          tb.DataFiles.filter (fun fi => decide (fi.FileMeta.SortKey = k))) := by
  unfold buildTopology at h
  cases hraw : buildTopologyRaw noSchema hasRouter cs a b c with
  | error e => rw [hraw] at h; exact absurd h (by simp [Except.map])
  | ok raw =>
    rw [hraw] at h
    simp only [Except.map, Except.ok.injEq] at h
    refine ⟨raw, rfl, h.symm, ?_, ?_, ?_⟩
    · intro db hdb
      rw [← h] at hdb
      unfold sortTopology at hdb
      simp only [List.mem_map] at hdb
      obtain ⟨db0, _, rfl⟩ := hdb
      exact ⟨sortDatabase_tables_sorted db0, sortDatabase_files_sorted db0⟩
    · intro db _ z
      exact sortDatabase_tables_stable db z
    · intro db _ tb _ k
      have hst := stableSortBy_stable (fun fi : FileInfo => fi.FileMeta.SortKey) tb.DataFiles k
      convert hst using 2 <;>
        exact funext fun fi => by congr 1

/-! ## Classifier lemmas and claim C7 -/

theorem string_length_zero_iff (s : String) : s.length = 0 ↔ s = "" := by
  constructor
  · intro h
    cases s with
    | mk data =>
      cases data with
      | nil => rfl
      | cons c cs => simp [String.length] at h
  · intro h
    subst h
    rfl

theorem mkFileInfo_TableName (entry : String × Int) (res : RouteResult) :
    (mkFileInfo entry res).TableName = { Schema := res.Schema, Name := res.Name } := rfl

theorem listFilesStep_clean (fr : FRouter) (ms : String → Bool)
    (mt : String → String → Bool) (bk bk' : Buckets) (entry : String × Int)
    (h : listFilesStep fr ms mt bk entry = .ok bk')
    (hc : cleanBuckets ms mt bk) : cleanBuckets ms mt bk' := by
  unfold listFilesStep at h
  obtain ⟨h1, h2, h3⟩ := hc
  split at h
  · exact absurd h (by simp)
  · simp only [Except.ok.injEq] at h
    subst h
    exact ⟨h1, h2, h3⟩
  · rename_i res heq
    split at h
    · simp only [Except.ok.injEq] at h
      subst h
      exact ⟨h1, h2, h3⟩
    · rename_i hskip
      rw [Bool.not_eq_true] at hskip
      have hnew : ∀ fi ∈ [mkFileInfo entry res], shouldSkip ms mt fi.TableName = false := by
        intro fi hfi
        rw [List.mem_singleton.mp hfi]
        exact hskip
      split at h <;> simp only [Except.ok.injEq] at h <;> subst h
      · refine ⟨?_, h2, h3⟩
        intro fi hfi
        rcases List.mem_append.mp hfi with hfi | hfi
        · exact h1 fi hfi
        · exact hnew fi hfi
      · refine ⟨h1, ?_, h3⟩
        intro fi hfi
        rcases List.mem_append.mp hfi with hfi | hfi
        · exact h2 fi hfi
        · exact hnew fi hfi
      · refine ⟨h1, h2, ?_⟩
        intro fi hfi
        rcases List.mem_append.mp hfi with hfi | hfi
        · exact h3 fi hfi
        · exact hnew fi hfi
      · refine ⟨h1, h2, ?_⟩
        intro fi hfi
        rcases List.mem_append.mp hfi with hfi | hfi
        · exact h3 fi hfi
        · exact hnew fi hfi
      · refine ⟨h1, h2, ?_⟩
        intro fi hfi
        rcases List.mem_append.mp hfi with hfi | hfi
        · exact h3 fi hfi
        · exact hnew fi hfi
      · exact ⟨h1, h2, h3⟩

theorem listFiles_clean (fr : FRouter) (ms : String → Bool)
    (mt : String → String → Bool) (entries : List (String × Int)) :
    ∀ bk bk', listFiles fr ms mt entries bk = .ok bk' →
      cleanBuckets ms mt bk → cleanBuckets ms mt bk' := by
  induction entries with
  | nil =>
    intro bk bk' h hc
    unfold listFiles at h
    simp only [Except.ok.injEq] at h
    exact h ▸ hc
  | cons entry rest ih =>
    intro bk bk' h hc
    unfold listFiles at h
    cases hstep : listFilesStep fr ms mt bk entry with
    | error e => rw [hstep] at h; exact absurd h (by simp)
    | ok bk1 =>
      rw [hstep] at h
      exact ih bk1 bk' h (listFilesStep_clean fr ms mt bk bk1 entry hstep hc)

/-- C7 — the Classifier applies the Name Filter through `shouldSkip`:
empty table name tests schema inclusion, otherwise table inclusion; an
excluded record is skipped without error (the callback returns the buckets
unchanged) and ends up in no bucket of a completed enumeration. -/
theorem classifier_name_filter (fr : FRouter) (ms : String → Bool)
    (mt : String → String → Bool) (entries : List (String × Int)) (bk : Buckets)
    (h : listFiles fr ms mt entries
        { dbSchemas := [], tableSchemas := [], tableDatas := [] } = .ok bk) :
    (∀ t : Table, shouldSkip ms mt t = true ↔
      ((t.Name = "" ∧ ms t.Schema = false) ∨ (t.Name ≠ "" ∧ mt t.Schema t.Name = false))) ∧
    (∀ (p : String) (sz : Int) (res : RouteResult), fr p = .ok (some res) →
      shouldSkip ms mt { Schema := res.Schema, Name := res.Name } = true →
      ∀ bk0, listFilesStep fr ms mt bk0 (p, sz) = .ok bk0) ∧
    (∀ fi : FileInfo, shouldSkip ms mt fi.TableName = true →
      fi ∉ bk.dbSchemas ∧ fi ∉ bk.tableSchemas ∧ fi ∉ bk.tableDatas) := by
  refine ⟨?_, ?_, ?_⟩
  · intro t
    unfold shouldSkip
    by_cases hn : t.Name.length = 0
    · rw [if_pos hn]
      have hne : t.Name = "" := (string_length_zero_iff t.Name).mp hn
      rw [hne]
      cases hms : ms t.Schema <;> simp [hms]
    · rw [if_neg hn]
      have hne : ¬ t.Name = "" := fun he => hn ((string_length_zero_iff t.Name).mpr he)
      cases hmt : mt t.Schema t.Name <;> simp [hmt, hne]
  · intro p sz res hfr hskip bk0
    unfold listFilesStep
    simp only [hfr]
    rw [← mkFileInfo_TableName (p, sz) res] at hskip
    rw [if_pos hskip]
  · have hclean : cleanBuckets ms mt bk :=
      listFiles_clean fr ms mt entries _ bk h
        ⟨fun fi hfi => absurd hfi (List.not_mem_nil fi),
         fun fi hfi => absurd hfi (List.not_mem_nil fi),
         fun fi hfi => absurd hfi (List.not_mem_nil fi)⟩
    intro fi hskip
    refine ⟨fun hmem => ?_, fun hmem => ?_, fun hmem => ?_⟩
    · rw [hclean.1 fi hmem] at hskip; cases hskip
    · rw [hclean.2.1 fi hmem] at hskip; cases hskip
    · rw [hclean.2.2 fi hmem] at hskip; cases hskip

/-- C7 witness at a concrete enumeration: a filtered-out table data file and
a filtered-out schema identity land in no bucket, while others do. -/
theorem classifier_name_filter_witness :
    (∀ t : Table, shouldSkip (fun s => s = "keep") (fun s n => s = "keep" && n = "t") t = true ↔
      ((t.Name = "" ∧ (t.Schema = "keep" : Bool) = false) ∨
       (t.Name ≠ "" ∧ (t.Schema = "keep" && t.Name = "t" : Bool) = false))) ∧
    (∀ (p : String) (sz : Int) (res : RouteResult),
      (fun pa => if pa = "drop.x.sql"
        then Except.ok (some { Schema := "drop", Name := "x", Type' := .SQL,
                               Compression := .plain, Key := "" })
        else Except.ok none : FRouter) p = .ok (some res) →
      shouldSkip (fun s => s = "keep") (fun s n => s = "keep" && n = "t")
        { Schema := res.Schema, Name := res.Name } = true →
      ∀ bk0, listFilesStep
        (fun pa => if pa = "drop.x.sql"
          then Except.ok (some { Schema := "drop", Name := "x", Type' := .SQL,
                                 Compression := .plain, Key := "" })
          else Except.ok none)
        (fun s => s = "keep") (fun s n => s = "keep" && n = "t") bk0 (p, sz) = .ok bk0) ∧
    (∀ fi : FileInfo,
      shouldSkip (fun s => s = "keep") (fun s n => s = "keep" && n = "t") fi.TableName = true →
      fi ∉ Buckets.dbSchemas { dbSchemas := [], tableSchemas := [], tableDatas := [] } ∧
      fi ∉ Buckets.tableSchemas { dbSchemas := [], tableSchemas := [], tableDatas := [] } ∧
      fi ∉ Buckets.tableDatas { dbSchemas := [], tableSchemas := [], tableDatas := [] }) :=
  classifier_name_filter
    (fun pa => if pa = "drop.x.sql"
      then Except.ok (some { Schema := "drop", Name := "x", Type' := .SQL,
                             Compression := .plain, Key := "" })
      else Except.ok none)
    (fun s => s = "keep") (fun s n => s = "keep" && n = "t")
    [("drop.x.sql", 4)] _ (by rfl)

/-! ## Claim C8 — mutually exclusive configuration -/

/-- C8 — supplying both legacy `[routes]` renaming rules and new-style
`[mydumper.files]` path-routing rules fails with the configuration-conflict
error, whatever the store contains and whatever the external constructors
would do: the rejection precedes any discovery. -/
theorem config_conflict_pre_discovery (routes fileRouters : List String)
    (h1 : routes ≠ []) (h2 : fileRouters ≠ []) :
    ∀ (defaultFileRules : Bool) (defaultRules : List String)
      (mkTableRouter : List String → Except String Router)
      (mkFileRouter : List String → Except String FRouter)
      (noSchema : Bool) (cs : String) (ms : String → Bool)
      (mt : String → String → Bool) (walk : List (String × Int)),
      newMyDumpLoaderWithStore routes fileRouters defaultFileRules defaultRules
        mkTableRouter mkFileRouter noSchema cs ms mt walk = .error .configConflict := by
  intro defaultFileRules defaultRules mkTableRouter mkFileRouter noSchema cs ms mt walk
  unfold newMyDumpLoaderWithStore
  rw [if_pos ⟨List.length_pos.mpr h1, List.length_pos.mpr h2⟩]

/-- C8 witness: one legacy rule plus one file-routing rule conflict, over
two different stores, with constructors that would otherwise succeed. -/
theorem config_conflict_pre_discovery_witness :
    newMyDumpLoaderWithStore ["r1"] ["f1"] true ["d"]
        (fun _ => .ok (fun s n => .ok (s, n))) (fun _ => .ok (fun _ => .ok none))
        false "utf8" (fun _ => true) (fun _ _ => true)
        [("x-schema-create.sql", 1)] = .error .configConflict ∧
    newMyDumpLoaderWithStore ["r1"] ["f1"] true ["d"]
        (fun _ => .ok (fun s n => .ok (s, n))) (fun _ => .ok (fun _ => .ok none))
        false "utf8" (fun _ => true) (fun _ _ => true) [] = .error .configConflict :=
  ⟨config_conflict_pre_discovery ["r1"] ["f1"] (by simp) (by simp) true ["d"]
      (fun _ => .ok (fun s n => .ok (s, n))) (fun _ => .ok (fun _ => .ok none))
      false "utf8" (fun _ => true) (fun _ _ => true) [("x-schema-create.sql", 1)],
   config_conflict_pre_discovery ["r1"] ["f1"] (by simp) (by simp) true ["d"]
      (fun _ => .ok (fun s n => .ok (s, n))) (fun _ => .ok (fun _ => .ok none))
      false "utf8" (fun _ => true) (fun _ _ => true) []⟩

/-! ## Claim C9 — schema extraction failures are local -/

/-- C9 — `GetSchema` never aborts: when the external extractor fails on a
table's schema file the caller receives the empty string. -/
theorem getSchema_error_empty
    (exportStatement : FileInfo → String → Except String String)
    (m : MDTableMeta) (e : String)
    (h : exportStatement m.SchemaFile m.charSet = .error e) :
    GetSchema exportStatement m = "" := by
  unfold GetSchema
  rw [h]

/-- C9 witness: a concrete failing extractor yields `""`. -/
theorem getSchema_error_empty_witness :
    ((fun (_ : FileInfo) (_ : String) => (.error "extract failed" : Except String String))
        (newTableMeta "utf8" (dummyFileInfo ⟨"db", "t"⟩)).SchemaFile
        (newTableMeta "utf8" (dummyFileInfo ⟨"db", "t"⟩)).charSet
      = .error "extract failed") ∧
    GetSchema (fun _ _ => .error "extract failed")
      (newTableMeta "utf8" (dummyFileInfo ⟨"db", "t"⟩)) = "" :=
  ⟨rfl, getSchema_error_empty (fun _ _ => .error "extract failed")
    (newTableMeta "utf8" (dummyFileInfo ⟨"db", "t"⟩)) "extract failed" rfl⟩

/-- C5 witness: a two-table schema-less build; the hypothesis is discharged
by evaluation and the conclusion instantiated at it. -/
theorem build_ordering_and_stability_witness :
    ∃ raw, buildTopologyRaw true false "utf8" [] [] [exData1, exData2] = .ok raw ∧
      exTopo5 = sortTopology raw ∧
      (∀ db ∈ exTopo5,
        db.Tables.Pairwise (fun x y => x.TotalSize ≤ y.TotalSize) ∧
        ∀ tb ∈ db.Tables,
          tb.DataFiles.Pairwise (fun x y => x.FileMeta.SortKey ≤ y.FileMeta.SortKey)) ∧
      (∀ db ∈ raw, ∀ z : Int,
        ((sortDatabase db).Tables.filter (fun tb => decide (tb.TotalSize = z))).map
            (fun tb => (tb.DB, tb.Name)) =
          (db.Tables.filter (fun tb => decide (tb.TotalSize = z))).map
            (fun tb => (tb.DB, tb.Name))) ∧
      (∀ db ∈ raw, ∀ tb ∈ db.Tables, ∀ k : String,
        (stableSortBy (fun fi => fi.FileMeta.SortKey) tb.DataFiles).filter
            (fun fi => decide (fi.FileMeta.SortKey = k)) =
          tb.DataFiles.filter (fun fi => decide (fi.FileMeta.SortKey = k))) :=
  build_ordering_and_stability true false "utf8" [] [] [exData1, exData2] exTopo5 rfl


/-! ## Claim C10 — tables and databases created from data files alone -/

theorem findCreateTable_zero (cs : String) (t : Table)
    (f : MDTableMeta → MDTableMeta)
    (hf : ∀ tb, (f tb).SchemaFile = tb.SchemaFile) :
    ∀ ts : List MDTableMeta, (∀ tb ∈ ts, zeroSchemaTable tb) →
      ∀ tb ∈ (findCreateTable cs (dummyFileInfo t) f ts).1, zeroSchemaTable tb := by
  intro ts
  induction ts with
  | nil =>
    intro _ tb htb
    rw [findCreateTable] at htb
    rw [List.mem_singleton.mp htb]
    unfold zeroSchemaTable
    rw [hf]
    exact ⟨rfl, rfl⟩
  | cons tb0 rest ih =>
    intro hts tb htb
    rw [findCreateTable] at htb
    by_cases hname : tb0.Name = (dummyFileInfo t).TableName.Name
    · rw [if_pos hname] at htb
      rcases List.mem_cons.mp htb with htb | htb
      · subst htb
        have hz := hts tb0 (List.mem_cons_self tb0 rest)
        unfold zeroSchemaTable
        rw [hf]
        exact hz
      · exact hts tb (List.mem_cons_of_mem tb0 htb)
    · rw [if_neg hname] at htb
      rcases List.mem_cons.mp htb with htb | htb
      · subst htb
        exact hts tb (List.mem_cons_self tb rest)
      · exact ih (fun x hx => hts x (List.mem_cons_of_mem tb0 hx)) tb htb

theorem upsertTable_dataOnly (cs : String) (t : Table)
    (f : MDTableMeta → MDTableMeta)
    (hf : ∀ tb, (f tb).SchemaFile = tb.SchemaFile) :
    ∀ dbs : List MDDatabaseMeta, (∀ db ∈ dbs, dataOnlyDB db) →
      ∀ db ∈ (upsertTable cs (dummyFileInfo t) f dbs).1, dataOnlyDB db := by
  intro dbs
  induction dbs with
  | nil =>
    intro _ db hdb
    rw [upsertTable] at hdb
    rw [List.mem_singleton.mp hdb]
    exact ⟨rfl, findCreateTable_zero cs t f hf []
      (fun x hx => absurd hx (List.not_mem_nil x))⟩
  | cons db0 rest ih =>
    intro hdbs db hdb
    rw [upsertTable] at hdb
    by_cases hname : db0.Name = (dummyFileInfo t).TableName.Schema
    · rw [if_pos hname] at hdb
      rcases List.mem_cons.mp hdb with hdb | hdb
      · subst hdb
        have hd := hdbs db0 (List.mem_cons_self db0 rest)
        exact ⟨hd.1, findCreateTable_zero cs t f hf db0.Tables hd.2⟩
      · exact hdbs db (List.mem_cons_of_mem db0 hdb)
    · rw [if_neg hname] at hdb
      rcases List.mem_cons.mp hdb with hdb | hdb
      · subst hdb
        exact hdbs db (List.mem_cons_self db rest)
      · exact ih (fun x hx => hdbs x (List.mem_cons_of_mem db0 hx)) db hdb

theorem insertTableDatas_dataOnly (cs : String) (files : List FileInfo) :
    ∀ dbs dbs' : List MDDatabaseMeta,
      insertTableDatas true cs dbs files = .ok dbs' →
      (∀ db ∈ dbs, dataOnlyDB db) → ∀ db ∈ dbs', dataOnlyDB db := by
  induction files with
  | nil =>
    intro dbs dbs' h hdbs
    rw [insertTableDatas] at h
    simp only [Except.ok.injEq] at h
    subst h
    exact hdbs
  | cons info rest ih =>
    intro dbs dbs' h hdbs
    rw [insertTableDatas] at h
    simp only [Bool.not_true, Bool.false_and, Bool.false_eq_true, if_false] at h
    exact ih _ dbs' h
      (upsertTable_dataOnly cs info.TableName
        (fun tb => { tb with DataFiles := tb.DataFiles ++ [info],
                             TotalSize := tb.TotalSize + info.Size })
        (fun tb => rfl) dbs hdbs)

theorem sortTopology_dataOnly (dbs : List MDDatabaseMeta)
    (h : ∀ db ∈ dbs, dataOnlyDB db) :
    ∀ db ∈ sortTopology dbs, dataOnlyDB db := by
  intro db hdb
  unfold sortTopology at hdb
  obtain ⟨db0, hdb0, rfl⟩ := List.mem_map.mp hdb
  obtain ⟨hs, ht⟩ := h db0 hdb0
  refine ⟨hs, ?_⟩
  intro tb htb
  unfold sortDatabase at htb
  obtain ⟨tb0, htb0, rfl⟩ := List.mem_map.mp htb
  have htb0' : tb0 ∈ db0.Tables :=
    (mem_stableSortBy (fun x => x.TotalSize) db0.Tables tb0).mp htb0
  exact ht tb0 htb0'

/-- C10 — with schema-mode disabled every database and table is created
from data-file evidence alone: each database's declaration path is the
empty string, and each table's `SchemaFile` is the dummy record whose
`SourceFileMeta` is the zero value (in particular its path is `""`) with
size 0. -/
theorem data_created_schema_files_empty (hasRouter : Bool) (cs : String)
    (a b c : List FileInfo) (topo : List MDDatabaseMeta)
    (h : buildTopology true hasRouter cs a b c = .ok topo) :
    ∀ db ∈ topo, db.SchemaFile = "" ∧
      ∀ tb ∈ db.Tables, tb.SchemaFile.FileMeta.Path = "" ∧
        tb.SchemaFile.FileMeta = SourceFileMeta.zero ∧ tb.SchemaFile.Size = 0 := by
  unfold buildTopology buildTopologyRaw at h
  simp only [if_true] at h
  cases hraw : insertTableDatas true cs [] c with
  | error e =>
    rw [hraw] at h
    exact absurd h (by simp [Except.map])
  | ok raw =>
    rw [hraw] at h
    simp only [Except.map, Except.ok.injEq] at h
    subst h
    have hall : ∀ db ∈ raw, dataOnlyDB db :=
      insertTableDatas_dataOnly cs c [] raw hraw
        (fun x hx => absurd hx (List.not_mem_nil x))
    intro db hdb
    obtain ⟨hs, ht⟩ := sortTopology_dataOnly raw hall db hdb
    refine ⟨hs, ?_⟩
    intro tb htb
    obtain ⟨hm, hz⟩ := ht tb htb
    exact ⟨by rw [hm]; rfl, hm, hz⟩

/-- C10 witness: a single data file creates its database and table with
empty declaration paths. -/
theorem data_created_schema_files_empty_witness :
    buildTopology true false "utf8" [] [] [exData3] = .ok exTopo10 ∧
    (∀ db ∈ exTopo10, db.SchemaFile = "" ∧
      ∀ tb ∈ db.Tables, tb.SchemaFile.FileMeta.Path = "" ∧
        tb.SchemaFile.FileMeta = SourceFileMeta.zero ∧ tb.SchemaFile.Size = 0) :=
  ⟨rfl, data_created_schema_files_empty false "utf8" [] [] [exData3] exTopo10 rfl⟩


/-! ## Claim C2 — Table Router failures -/

/-- C2 counterexample: a Table Router that always fails with one payload
makes two builds whose offending records have different identities abort
with literally identical errors — the fatal error cannot carry the
offending schema/table identity, because `route` returns
`errors.Trace(err)` with nothing attached. -/
theorem router_error_no_identity_counterexample :
    mdSetup false (some exBadRouter) "utf8" [] [tblDecl "db1" "t1" exMetaTS1 0] [] =
        .error (.routeError "routing failed") ∧
    mdSetup false (some exBadRouter) "utf8" [] [tblDecl "db2" "t2" exMetaTS2 0] [] =
        .error (.routeError "routing failed") ∧
    (tblDecl "db1" "t1" exMetaTS1 0).TableName ≠ (tblDecl "db2" "t2" exMetaTS2 0).TableName :=
  ⟨rfl, rfl, by decide⟩

/-- C2 amended — any Table Router error aborts the whole build with a fatal
error; that error is the router's error propagated unchanged (only
stack-traced by `errors.Trace`), not annotated with the offending
schema/table identity. -/
theorem router_error_aborts_build (noSchema : Bool) (r : Router) (cs : String)
    (a b c : List FileInfo) (e : String)
    (h : routeAll (some r) a b c = .error e) :
    mdSetup noSchema (some r) cs a b c = .error (.routeError e) := by
  unfold mdSetup
  rw [h]

/-- C2 witness: the abort propagation at a concrete failing router. -/
theorem router_error_aborts_build_witness :
    routeAll (some exBadRouter) [] [tblDecl "db1" "t1" exMetaTS1 0] [] =
        .error "routing failed" ∧
    mdSetup false (some exBadRouter) "utf8" [] [tblDecl "db1" "t1" exMetaTS1 0] [] =
        .error (.routeError "routing failed") :=
  ⟨rfl, router_error_aborts_build false exBadRouter "utf8" []
    [tblDecl "db1" "t1" exMetaTS1 0] [] "routing failed" rfl⟩

/-! ## Claim C1 — rename conservation -/

/-- C1 counterexample: routing `a.t` to the previously empty, undeclared
schema `b` synthesizes a database-schema record for `b` whose declaration
path is `"a-schema-create.sql"` — the path of `a`'s **database**-schema
file — and not `"a.t-schema.sql"`, the path of `a`'s table-schema file, as
the claim states. -/
theorem rename_inherits_db_declaration_counterexample :
    mdSetup false (some exRouterAB) "utf8"
        [dbDecl "a" exMetaDBA 0] [tblDecl "a" "t" exMetaTSA 0] [dataFile "a" "t" exMetaDataA 7] =
      .ok [{ Name := "b", SchemaFile := "a-schema-create.sql",
             Tables := [{ DB := "b", Name := "t",
                          SchemaFile := tblDecl "b" "t" exMetaTSA 0,
                          DataFiles := [dataFile "b" "t" exMetaDataA 7],
                          charSet := "utf8", TotalSize := 7 }],
             charSet := "utf8" }] ∧
    ("a-schema-create.sql" : String) ≠ exMetaTSA.Path :=
  ⟨rfl, by decide⟩

/-- C1 amended — routing the single table `A.t` of a declared schema `A`
(one table-schema file, one data file) to a previously empty, undeclared
schema `B` synthesizes a database-schema record for `B` whose declaration
path is inherited from `A`'s **database**-schema record, and drops `A`'s
record once its reference count reaches zero. -/
theorem rename_conservation (A B t t2 cs : String) (mA mT mD : SourceFileMeta)
    (szT szD : Int) (r : Router) (hAB : A ≠ B) (hr : r A t = .ok (B, t2)) :
    mdSetup false (some r) cs
        [dbDecl A mA 0] [tblDecl A t mT szT] [dataFile A t mD szD] =
      .ok [{ Name := B, SchemaFile := mA.Path,
             Tables := [{ DB := B, Name := t2,
                          SchemaFile := tblDecl B t2 mT szT,
                          DataFiles := [dataFile B t2 mD szD],
                          charSet := cs, TotalSize := szD }],
             charSet := cs }] := by
  have hBA : B ≠ A := Ne.symm hAB
  simp [mdSetup, routeAll, initKnown, routeRun, kmSet, kmGet, kmFind, hr, hAB, hBA,
        buildTopology, buildTopologyRaw, schemaPhase, insertDBSchemas, insertDB,
        insertTableSchemas, upsertTable, findCreateTable, insertTableDatas,
        sortTopology, sortDatabase, sortTableFiles, stableSortBy, insertByKey,
        dummyFileInfo, dbDecl, tblDecl, dataFile, newTableMeta, Except.map]

/-- C1 witness: the amended rename-conservation behaviour at the concrete
`a.t ↦ b.t` scenario. -/
theorem rename_conservation_witness :
    mdSetup false (some exRouterAB) "utf8"
        [dbDecl "a" exMetaDBA 0] [tblDecl "a" "t" exMetaTSA 0] [dataFile "a" "t" exMetaDataA 7] =
      .ok [{ Name := "b", SchemaFile := exMetaDBA.Path,
             Tables := [{ DB := "b", Name := "t",
                          SchemaFile := tblDecl "b" "t" exMetaTSA 0,
                          DataFiles := [dataFile "b" "t" exMetaDataA 7],
                          charSet := "utf8", TotalSize := 7 }],
             charSet := "utf8" }] :=
  rename_conservation "a" "b" "t" "t" "utf8" exMetaDBA exMetaTSA exMetaDataA 0 7
    exRouterAB (by decide) rfl

/-! ## Claim C3 — duplicate declarations -/

/-- C3 — duplicate-declaration policy.  With no Table Router configured,
two database-schema declarations for the same schema (resp. two
table-schema declarations for the same table) are a fatal
duplicate-declaration error; with a Table Router configured the same input
builds successfully (for table schemas, provided the router maps the
declared identity somewhere, `(B, t2)` arbitrary). -/
theorem duplicate_declaration_policy (A t cs : String)
    (m1 m2 n1 n2 mA : SourceFileMeta) (z1 z2 w1 w2 zA : Int) :
    (mdSetup false none cs [dbDecl A m1 z1, dbDecl A m2 z2] [] [] =
        .error (.duplicateDBSchema m2.Path)) ∧
    (∀ r : Router,
      mdSetup false (some r) cs [dbDecl A m1 z1, dbDecl A m2 z2] [] [] =
        .ok [{ Name := A, SchemaFile := m1.Path, Tables := [], charSet := cs }]) ∧
    (mdSetup false none cs [dbDecl A mA zA] [tblDecl A t n1 w1, tblDecl A t n2 w2] [] =
        .error (.duplicateTableSchema n2.Path)) ∧
    (∀ (r : Router) (B t2 : String), r A t = .ok (B, t2) →
      ∃ topo, mdSetup false (some r) cs [dbDecl A mA zA]
        [tblDecl A t n1 w1, tblDecl A t n2 w2] [] = .ok topo) := by
  refine ⟨?_, ?_, ?_, ?_⟩
  · simp [mdSetup, routeAll, buildTopology, buildTopologyRaw, schemaPhase,
          insertDBSchemas, insertDB, dbDecl, Except.map]
  · intro r
    simp [mdSetup, routeAll, initKnown, routeRun, kmSet, kmGet, kmFind,
          buildTopology, buildTopologyRaw, schemaPhase, insertDBSchemas, insertDB,
          insertTableSchemas, insertTableDatas, sortTopology, sortDatabase,
          sortTableFiles, stableSortBy, dbDecl, Except.map]
  · simp [mdSetup, routeAll, buildTopology, buildTopologyRaw, schemaPhase,
          insertDBSchemas, insertDB, insertTableSchemas, upsertTable,
          findCreateTable, dbDecl, tblDecl, newTableMeta, Except.map]
  · intro r B t2 hr
    by_cases hB : B = A
    · subst hB
      refine ⟨[{ Name := B, SchemaFile := mA.Path,
                 Tables := [{ DB := B, Name := t2,
                              SchemaFile := tblDecl B t2 n1 w1,
                              DataFiles := [], charSet := cs, TotalSize := 0 }],
                 charSet := cs }], ?_⟩
      simp [mdSetup, routeAll, initKnown, routeRun, kmSet, kmGet, kmFind, hr,
            buildTopology, buildTopologyRaw, schemaPhase, insertDBSchemas, insertDB,
            insertTableSchemas, upsertTable, findCreateTable, insertTableDatas,
            sortTopology, sortDatabase, sortTableFiles, stableSortBy, insertByKey,
            dbDecl, tblDecl, newTableMeta, Except.map]
    · have hBA : ¬ A = B := fun he => hB he.symm
      refine ⟨[{ Name := A, SchemaFile := mA.Path, Tables := [], charSet := cs },
               { Name := B, SchemaFile := mA.Path,
                 Tables := [{ DB := B, Name := t2,
                              SchemaFile := tblDecl B t2 n1 w1,
                              DataFiles := [], charSet := cs, TotalSize := 0 }],
                 charSet := cs }], ?_⟩
      simp [mdSetup, routeAll, initKnown, routeRun, kmSet, kmGet, kmFind, hr, hB, hBA,
            buildTopology, buildTopologyRaw, schemaPhase, insertDBSchemas, insertDB,
            insertTableSchemas, upsertTable, findCreateTable, insertTableDatas,
            sortTopology, sortDatabase, sortTableFiles, stableSortBy, insertByKey,
            dbDecl, tblDecl, newTableMeta, Except.map]

/-- C3 witness at concrete names and paths. -/
theorem duplicate_declaration_policy_witness :
    (mdSetup false none "utf8"
        [dbDecl "a" exMetaDBA 0, dbDecl "a" exMetaTSA 0] [] [] =
        .error (.duplicateDBSchema exMetaTSA.Path)) ∧
    (∀ r : Router,
      mdSetup false (some r) "utf8"
        [dbDecl "a" exMetaDBA 0, dbDecl "a" exMetaTSA 0] [] [] =
        .ok [{ Name := "a", SchemaFile := exMetaDBA.Path, Tables := [], charSet := "utf8" }]) ∧
    (mdSetup false none "utf8" [dbDecl "a" exMetaDBA 0]
        [tblDecl "a" "t" exMetaTSA 0, tblDecl "a" "t" exMetaDataA 0] [] =
        .error (.duplicateTableSchema exMetaDataA.Path)) ∧
    (∀ (r : Router) (B t2 : String), r "a" "t" = .ok (B, t2) →
      ∃ topo, mdSetup false (some r) "utf8" [dbDecl "a" exMetaDBA 0]
        [tblDecl "a" "t" exMetaTSA 0, tblDecl "a" "t" exMetaDataA 0] [] = .ok topo) :=
  duplicate_declaration_policy "a" "t" "utf8" exMetaDBA exMetaTSA exMetaTSA exMetaDataA
    exMetaDBA 0 0 0 0 0

/-! ## Claim C4 — missing declarations: structural lemmas -/

theorem dummyFileInfo_TableName (t : Table) : (dummyFileInfo t).TableName = t := rfl

theorem insertDB_exists (cs n p : String) (dbs : List MDDatabaseMeta) :
    (insertDB cs n p dbs).2 = hasDB dbs n := by
  induction dbs with
  | nil => simp [insertDB, hasDB]
  | cons db rest ih =>
    by_cases h : db.Name = n
    · rw [insertDB, if_pos h]
      simp [hasDB, h]
    · rw [insertDB, if_neg h]
      simp only [hasDB, List.any_cons]
      simp [hasDB] at ih
      simp [ih, h]

theorem hasDB_insertDB (cs n p : String) (dbs : List MDDatabaseMeta) (m : String) :
    hasDB (insertDB cs n p dbs).1 m = (hasDB dbs m || decide (n = m)) := by
  induction dbs with
  | nil => simp [insertDB, hasDB]
  | cons db rest ih =>
    by_cases h : db.Name = n
    · rw [insertDB, if_pos h]
      by_cases hm : n = m
      · simp [hasDB, h, hm]
      · simp [hasDB, hm]
    · rw [insertDB, if_neg h]
      simp only [hasDB, List.any_cons] at ih ⊢
      rw [ih, Bool.or_assoc]

theorem insertDB_tables_nil (cs n p : String) (dbs : List MDDatabaseMeta)
    (h : ∀ db ∈ dbs, db.Tables = []) :
    ∀ db ∈ (insertDB cs n p dbs).1, db.Tables = [] := by
  induction dbs with
  | nil =>
    intro db hdb
    rw [insertDB] at hdb
    rw [List.mem_singleton.mp hdb]
  | cons db0 rest ih =>
    intro db hdb
    by_cases hn : db0.Name = n
    · rw [insertDB, if_pos hn] at hdb
      exact h db hdb
    · rw [insertDB, if_neg hn] at hdb
      rcases List.mem_cons.mp hdb with hdb | hdb
      · subst hdb
        exact h db (List.mem_cons_self db rest)
      · exact ih (fun x hx => h x (List.mem_cons_of_mem db0 hx)) db hdb

theorem hasTable_of_tables_nil (dbs : List MDDatabaseMeta)
    (h : ∀ db ∈ dbs, db.Tables = []) (u : Table) :
    hasTable dbs u = false := by
  unfold hasTable
  cases hfind : dbs.find? (fun db => decide (db.Name = u.Schema)) with
  | none => rfl
  | some db =>
    have hmem : db ∈ dbs := List.mem_of_find?_eq_some hfind
    show (db.Tables.any fun tb => decide (tb.Name = u.Name)) = false
    rw [h db hmem]
    rfl

theorem findCreateTable_exists (cs : String) (fi : FileInfo)
    (f : MDTableMeta → MDTableMeta) (ts : List MDTableMeta) :
    (findCreateTable cs fi f ts).2 =
      ts.any (fun tb => decide (tb.Name = fi.TableName.Name)) := by
  induction ts with
  | nil => simp [findCreateTable]
  | cons tb rest ih =>
    by_cases h : tb.Name = fi.TableName.Name
    · rw [findCreateTable, if_pos h]
      simp [h]
    · rw [findCreateTable, if_neg h]
      simp only [List.any_cons]
      simp [ih, h]

theorem findCreateTable_names (cs : String) (fi : FileInfo)
    (f : MDTableMeta → MDTableMeta) (hf : ∀ tb, (f tb).Name = tb.Name)
    (ts : List MDTableMeta) (n : String) :
    ((findCreateTable cs fi f ts).1).any (fun tb => decide (tb.Name = n)) =
      (ts.any (fun tb => decide (tb.Name = n)) || decide (fi.TableName.Name = n)) := by
  induction ts with
  | nil =>
    simp [findCreateTable, hf, newTableMeta]
  | cons tb rest ih =>
    by_cases h : tb.Name = fi.TableName.Name
    · rw [findCreateTable, if_pos h]
      simp only [List.any_cons, hf tb]
      rw [← h]
      cases htb : decide (tb.Name = n) <;>
        cases hrest : rest.any (fun x => decide (x.Name = n)) <;> simp [htb, hrest]
    · rw [findCreateTable, if_neg h]
      simp only [List.any_cons, ih, Bool.or_assoc]

theorem upsertTable_dbExists (cs : String) (fi : FileInfo)
    (f : MDTableMeta → MDTableMeta) (dbs : List MDDatabaseMeta) :
    (upsertTable cs fi f dbs).2.1 = hasDB dbs fi.TableName.Schema := by
  induction dbs with
  | nil => simp [upsertTable, hasDB]
  | cons db rest ih =>
    by_cases h : db.Name = fi.TableName.Schema
    · rw [upsertTable, if_pos h]
      simp [hasDB, h]
    · rw [upsertTable, if_neg h]
      simp only [hasDB, List.any_cons]
      simp [hasDB] at ih
      simp [ih, h]

theorem upsertTable_tableExists (cs : String) (fi : FileInfo)
    (f : MDTableMeta → MDTableMeta) (dbs : List MDDatabaseMeta) :
    (upsertTable cs fi f dbs).2.2 = hasTable dbs fi.TableName := by
  induction dbs with
  | nil => simp [upsertTable, findCreateTable, hasTable]
  | cons db rest ih =>
    by_cases h : db.Name = fi.TableName.Schema
    · rw [upsertTable, if_pos h]
      unfold hasTable
      rw [List.find?_cons_of_pos _ (by simp [h])]
      exact findCreateTable_exists cs fi f db.Tables
    · rw [upsertTable, if_neg h]
      unfold hasTable
      rw [List.find?_cons_of_neg _ (by simp [h])]
      exact ih

theorem hasDB_upsertTable (cs : String) (fi : FileInfo)
    (f : MDTableMeta → MDTableMeta) (dbs : List MDDatabaseMeta) (m : String) :
    hasDB (upsertTable cs fi f dbs).1 m =
      (hasDB dbs m || decide (fi.TableName.Schema = m)) := by
  induction dbs with
  | nil => simp [upsertTable, hasDB]
  | cons db rest ih =>
    by_cases h : db.Name = fi.TableName.Schema
    · rw [upsertTable, if_pos h]
      by_cases hm : fi.TableName.Schema = m
      · simp [hasDB, h, hm]
      · simp [hasDB, hm]
    · rw [upsertTable, if_neg h]
      simp only [hasDB, List.any_cons] at ih ⊢
      rw [ih, Bool.or_assoc]

theorem hasTable_upsertTable (cs : String) (fi : FileInfo)
    (f : MDTableMeta → MDTableMeta) (hf : ∀ tb, (f tb).Name = tb.Name)
    (dbs : List MDDatabaseMeta) (u : Table) :
    hasTable (upsertTable cs fi f dbs).1 u =
      (hasTable dbs u || decide (fi.TableName = u)) := by
  have htab : ∀ v w : Table, decide (v = w) =
      (decide (v.Schema = w.Schema) && decide (v.Name = w.Name)) := by
    intro v w
    cases v with
    | mk vs vn =>
      cases w with
      | mk ws wn =>
        by_cases h1 : vs = ws <;> by_cases h2 : vn = wn <;>
          simp [Table.mk.injEq, h1, h2]
  induction dbs with
  | nil =>
    unfold upsertTable hasTable
    by_cases hs : fi.TableName.Schema = u.Schema
    · rw [List.find?_cons_of_pos _ (by simp [hs])]
      simp only [List.find?_nil]
      rw [findCreateTable_names cs fi f hf [] u.Name]
      rw [htab fi.TableName u, hs]
      simp
    · rw [List.find?_cons_of_neg _ (by simp [hs])]
      simp only [List.find?_nil]
      rw [htab fi.TableName u]
      simp [hs]
  | cons db rest ih =>
    by_cases h : db.Name = fi.TableName.Schema
    · rw [upsertTable, if_pos h]
      by_cases hs : db.Name = u.Schema
      · unfold hasTable
        rw [List.find?_cons_of_pos _ (by simp [hs]), List.find?_cons_of_pos _ (by simp [hs])]
        simp only
        rw [findCreateTable_names cs fi f hf db.Tables u.Name]
        rw [htab fi.TableName u]
        have : decide (fi.TableName.Schema = u.Schema) = true := by
          simp [← h, hs]
        simp [this]
      · unfold hasTable
        rw [List.find?_cons_of_neg _ (by simp [hs]), List.find?_cons_of_neg _ (by simp [hs])]
        have : decide (fi.TableName = u) = false := by
          rw [htab fi.TableName u]
          have : ¬ fi.TableName.Schema = u.Schema := fun he => hs (h.trans he)
          simp [this]
        rw [this]
        simp
    · rw [upsertTable, if_neg h]
      by_cases hs : db.Name = u.Schema
      · unfold hasTable
        rw [List.find?_cons_of_pos _ (by simp [hs]), List.find?_cons_of_pos _ (by simp [hs])]
        have : decide (fi.TableName = u) = false := by
          rw [htab fi.TableName u]
          have hne : ¬ fi.TableName.Schema = u.Schema := fun he => h (hs.symm ▸ he ▸ rfl)
          simp [hne]
        rw [this]
        simp
      · unfold hasTable
        rw [List.find?_cons_of_neg _ (by simp [hs]), List.find?_cons_of_neg _ (by simp [hs])]
        exact ih

/-! ## Claim C4 — phase-level lemmas -/

theorem insertDBSchemas_ok_hasDB (hr : Bool) (cs : String) (a : List FileInfo) :
    ∀ dbs dbs', insertDBSchemas hr cs dbs a = .ok dbs' →
      ∀ n, hasDB dbs' n =
        (hasDB dbs n || a.any (fun fi => decide (fi.TableName.Schema = n))) := by
  induction a with
  | nil =>
    intro dbs dbs' h n
    rw [insertDBSchemas] at h
    simp only [Except.ok.injEq] at h
    subst h
    simp
  | cons fi rest ih =>
    intro dbs dbs' h n
    rw [insertDBSchemas] at h
    split at h
    · exact absurd h (by simp)
    · rw [ih _ dbs' h n, hasDB_insertDB]
      simp only [List.any_cons]
      rw [Bool.or_assoc]

theorem insertDBSchemas_ok_tables_nil (hr : Bool) (cs : String) (a : List FileInfo) :
    ∀ dbs dbs', insertDBSchemas hr cs dbs a = .ok dbs' →
      (∀ db ∈ dbs, db.Tables = []) → ∀ db ∈ dbs', db.Tables = [] := by
  induction a with
  | nil =>
    intro dbs dbs' h hnil
    rw [insertDBSchemas] at h
    simp only [Except.ok.injEq] at h
    subst h
    exact hnil
  | cons fi rest ih =>
    intro dbs dbs' h hnil
    rw [insertDBSchemas] at h
    split at h
    · exact absurd h (by simp)
    · exact ih _ dbs' h (insertDB_tables_nil cs fi.TableName.Schema fi.FileMeta.Path dbs hnil)

theorem insertDBSchemas_error_dup (hr : Bool) (cs : String) (a : List FileInfo) :
    ∀ dbs e, insertDBSchemas hr cs dbs a = .error e → isDuplicate e = true := by
  induction a with
  | nil =>
    intro dbs e h
    rw [insertDBSchemas] at h
    exact absurd h (by simp)
  | cons fi rest ih =>
    intro dbs e h
    rw [insertDBSchemas] at h
    split at h
    · simp only [Except.error.injEq] at h
      subst h
      rfl
    · exact ih _ e h

theorem insertTableSchemas_ok (hr : Bool) (cs : String) (b : List FileInfo) :
    ∀ dbs dbs', insertTableSchemas hr cs dbs b = .ok dbs' →
      (∀ fi ∈ b, hasDB dbs fi.TableName.Schema = true) ∧
      (∀ n, hasDB dbs' n = hasDB dbs n) ∧
      (∀ u, hasTable dbs' u =
        (hasTable dbs u || b.any (fun fi => decide (fi.TableName = u)))) := by
  induction b with
  | nil =>
    intro dbs dbs' h
    rw [insertTableSchemas] at h
    simp only [Except.ok.injEq] at h
    subst h
    exact ⟨fun fi hfi => absurd hfi (List.not_mem_nil fi),
           fun n => rfl, fun u => by simp⟩
  | cons fi rest ih =>
    intro dbs dbs' h
    rw [insertTableSchemas] at h
    split at h
    · exact absurd h (by simp)
    · rename_i hdbex
      split at h
      · exact absurd h (by simp)
      · obtain ⟨H1, H2, H3⟩ := ih _ dbs' h
        have hdbex' : (upsertTable cs fi id dbs).2.1 = true := by
          revert hdbex
          cases (upsertTable cs fi id dbs).2.1 <;> simp
        clear hdbex
        rw [upsertTable_dbExists] at hdbex'
        have hDpres : ∀ n, hasDB (upsertTable cs fi id dbs).1 n = hasDB dbs n := by
          intro n
          rw [hasDB_upsertTable]
          by_cases hn : fi.TableName.Schema = n
          · rw [← hn, hdbex']
            simp
          · simp [hn]
        have hTeq : ∀ u, hasTable (upsertTable cs fi id dbs).1 u =
            (hasTable dbs u || decide (fi.TableName = u)) :=
          fun u => hasTable_upsertTable cs fi id (fun tb => rfl) dbs u
        refine ⟨?_, ?_, ?_⟩
        · intro g hg
          rcases List.mem_cons.mp hg with hg | hg
          · rw [hg]
            exact hdbex'
          · rw [← hDpres g.TableName.Schema]
            exact H1 g hg
        · intro n
          rw [H2 n, hDpres n]
        · intro u
          rw [H3 u, hTeq u]
          simp only [List.any_cons]
          rw [Bool.or_assoc]

theorem insertTableSchemas_error_kind (hr : Bool) (cs : String) (b : List FileInfo) :
    ∀ dbs e, insertTableSchemas hr cs dbs b = .error e →
      (isMissingDecl e || isDuplicate e) = true := by
  induction b with
  | nil =>
    intro dbs e h
    rw [insertTableSchemas] at h
    exact absurd h (by simp)
  | cons fi rest ih =>
    intro dbs e h
    rw [insertTableSchemas] at h
    split at h
    · simp only [Except.error.injEq] at h
      subst h
      rfl
    · split at h
      · simp only [Except.error.injEq] at h
        subst h
        rfl
      · exact ih _ e h

theorem insertTableSchemas_error_missing (hr : Bool) (cs : String) (b : List FileInfo) :
    ∀ dbs e, insertTableSchemas hr cs dbs b = .error e → isMissingDecl e = true →
      ∃ fi ∈ b, hasDB dbs fi.TableName.Schema = false := by
  induction b with
  | nil =>
    intro dbs e h _
    rw [insertTableSchemas] at h
    exact absurd h (by simp)
  | cons fi rest ih =>
    intro dbs e h hmiss
    rw [insertTableSchemas] at h
    split at h
    · rename_i hdb
      rw [Bool.not_eq_eq_eq_not, Bool.not_true] at hdb
      rw [upsertTable_dbExists] at hdb
      exact ⟨fi, List.mem_cons_self fi rest, hdb⟩
    · split at h
      · simp only [Except.error.injEq] at h
        subst h
        exact absurd hmiss (by simp [isMissingDecl])
      · obtain ⟨g, hg, hgfalse⟩ := ih _ e h hmiss
        refine ⟨g, List.mem_cons_of_mem fi hg, ?_⟩
        rw [hasDB_upsertTable] at hgfalse
        exact (Bool.or_eq_false_iff.mp hgfalse).1

theorem insertTableDatas_error_missing_kind (ns : Bool) (cs : String) (c : List FileInfo) :
    ∀ dbs e, insertTableDatas ns cs dbs c = .error e → isMissingDecl e = true := by
  induction c with
  | nil =>
    intro dbs e h
    rw [insertTableDatas] at h
    exact absurd h (by simp)
  | cons fi rest ih =>
    intro dbs e h
    rw [insertTableDatas] at h
    split at h
    · simp only [Except.error.injEq] at h
      subst h
      rfl
    · split at h
      · simp only [Except.error.injEq] at h
        subst h
        rfl
      · exact ih _ e h

theorem insertTableDatas_true_ok (cs : String) (c : List FileInfo) :
    ∀ dbs, ∃ dbs', insertTableDatas true cs dbs c = .ok dbs' := by
  induction c with
  | nil =>
    intro dbs
    exact ⟨dbs, rfl⟩
  | cons fi rest ih =>
    intro dbs
    rw [insertTableDatas]
    simp only [Bool.not_true, Bool.false_and, Bool.false_eq_true, if_false]
    exact ih _

theorem insertTableDatas_false_ok (cs : String) (c : List FileInfo) :
    ∀ dbs dbs', insertTableDatas false cs dbs c = .ok dbs' →
      ∀ fi ∈ c, hasDB dbs fi.TableName.Schema = true ∧
        hasTable dbs fi.TableName = true := by
  induction c with
  | nil =>
    intro dbs dbs' h fi hfi
    exact absurd hfi (List.not_mem_nil fi)
  | cons fi rest ih =>
    intro dbs dbs' h g hg
    rw [insertTableDatas] at h
    split at h
    · exact absurd h (by simp)
    · rename_i hdb
      split at h
      · exact absurd h (by simp)
      · rename_i htab
        have hdb' : hasDB dbs fi.TableName.Schema = true := by
          have hh : (upsertTable cs (dummyFileInfo fi.TableName)
              (fun tb => { tb with DataFiles := tb.DataFiles ++ [fi],
                                   TotalSize := tb.TotalSize + fi.Size }) dbs).2.1 = true := by
            revert hdb
            cases (upsertTable cs (dummyFileInfo fi.TableName)
              (fun tb => { tb with DataFiles := tb.DataFiles ++ [fi],
                                   TotalSize := tb.TotalSize + fi.Size }) dbs).2.1 <;> simp
          rw [upsertTable_dbExists, dummyFileInfo_TableName] at hh
          exact hh
        have htab' : hasTable dbs fi.TableName = true := by
          have hh : (upsertTable cs (dummyFileInfo fi.TableName)
              (fun tb => { tb with DataFiles := tb.DataFiles ++ [fi],
                                   TotalSize := tb.TotalSize + fi.Size }) dbs).2.2 = true := by
            revert htab
            cases (upsertTable cs (dummyFileInfo fi.TableName)
              (fun tb => { tb with DataFiles := tb.DataFiles ++ [fi],
                                   TotalSize := tb.TotalSize + fi.Size }) dbs).2.2 <;> simp
          rw [upsertTable_tableExists, dummyFileInfo_TableName] at hh
          exact hh
        rcases List.mem_cons.mp hg with hg | hg
        · rw [hg]
          exact ⟨hdb', htab'⟩
        · have hrec := ih _ dbs' h g hg
          constructor
          · have hx := hrec.1
            rw [hasDB_upsertTable] at hx
            by_cases hn : (dummyFileInfo fi.TableName).TableName.Schema = g.TableName.Schema
            · rw [← hn]
              exact hdb'
            · simpa [hn] using hx
          · have hx := hrec.2
            rw [hasTable_upsertTable cs (dummyFileInfo fi.TableName)
              (fun tb => { tb with DataFiles := tb.DataFiles ++ [fi],
                                   TotalSize := tb.TotalSize + fi.Size })
              (fun tb => rfl)] at hx
            by_cases hu : (dummyFileInfo fi.TableName).TableName = g.TableName
            · rw [← hu]
              exact htab'
            · simpa [hu] using hx

theorem insertTableDatas_false_error (cs : String) (c : List FileInfo) :
    ∀ dbs e, insertTableDatas false cs dbs c = .error e →
      ∃ fi ∈ c, (hasDB dbs fi.TableName.Schema = false ∨
        hasTable dbs fi.TableName = false) := by
  induction c with
  | nil =>
    intro dbs e h
    rw [insertTableDatas] at h
    exact absurd h (by simp)
  | cons fi rest ih =>
    intro dbs e h
    rw [insertTableDatas] at h
    split at h
    · rename_i hdb
      have hdb' : hasDB dbs fi.TableName.Schema = false := by
        have hh : (upsertTable cs (dummyFileInfo fi.TableName)
            (fun tb => { tb with DataFiles := tb.DataFiles ++ [fi],
                                 TotalSize := tb.TotalSize + fi.Size }) dbs).2.1 = false := by
          revert hdb
          cases (upsertTable cs (dummyFileInfo fi.TableName)
            (fun tb => { tb with DataFiles := tb.DataFiles ++ [fi],
                                 TotalSize := tb.TotalSize + fi.Size }) dbs).2.1 <;> simp
        rw [upsertTable_dbExists, dummyFileInfo_TableName] at hh
        exact hh
      exact ⟨fi, List.mem_cons_self fi rest, Or.inl hdb'⟩
    · split at h
      · rename_i htab
        have htab' : hasTable dbs fi.TableName = false := by
          have hh : (upsertTable cs (dummyFileInfo fi.TableName)
              (fun tb => { tb with DataFiles := tb.DataFiles ++ [fi],
                                   TotalSize := tb.TotalSize + fi.Size }) dbs).2.2 = false := by
            revert htab
            cases (upsertTable cs (dummyFileInfo fi.TableName)
              (fun tb => { tb with DataFiles := tb.DataFiles ++ [fi],
                                   TotalSize := tb.TotalSize + fi.Size }) dbs).2.2 <;> simp
          rw [upsertTable_tableExists, dummyFileInfo_TableName] at hh
          exact hh
        exact ⟨fi, List.mem_cons_self fi rest, Or.inr htab'⟩
      · obtain ⟨g, hg, hor⟩ := ih _ e h
        refine ⟨g, List.mem_cons_of_mem fi hg, ?_⟩
        rcases hor with hor | hor
        · rw [hasDB_upsertTable] at hor
          exact Or.inl (Bool.or_eq_false_iff.mp hor).1
        · rw [hasTable_upsertTable cs (dummyFileInfo fi.TableName)
            (fun tb => { tb with DataFiles := tb.DataFiles ++ [fi],
                                 TotalSize := tb.TotalSize + fi.Size })
            (fun tb => rfl)] at hor
          exact Or.inr (Bool.or_eq_false_iff.mp hor).1

/-! ## Claim C4 — assembly -/

theorem any_schema_iff (a : List FileInfo) (n : String) :
    (a.any (fun fi => decide (fi.TableName.Schema = n)) = true) ↔
      n ∈ declaredSchemas a := by
  rw [List.any_eq_true]
  unfold declaredSchemas
  rw [List.mem_map]
  constructor
  · rintro ⟨fi, hfi, hd⟩
    exact ⟨fi, hfi, of_decide_eq_true hd⟩
  · rintro ⟨fi, hfi, hd⟩
    exact ⟨fi, hfi, decide_eq_true hd⟩

theorem any_table_iff (b : List FileInfo) (u : Table) :
    (b.any (fun fi => decide (fi.TableName = u)) = true) ↔
      u ∈ declaredTables b := by
  rw [List.any_eq_true]
  unfold declaredTables
  rw [List.mem_map]
  constructor
  · rintro ⟨fi, hfi, hd⟩
    exact ⟨fi, hfi, of_decide_eq_true hd⟩
  · rintro ⟨fi, hfi, hd⟩
    exact ⟨fi, hfi, decide_eq_true hd⟩

theorem buildTopology_error_iff (ns hr : Bool) (cs : String)
    (a b c : List FileInfo) (e : LoaderError) :
    buildTopology ns hr cs a b c = .error e ↔
      buildTopologyRaw ns hr cs a b c = .error e := by
  unfold buildTopology
  cases buildTopologyRaw ns hr cs a b c <;> simp [Except.map]

theorem schemaPhase_ok_facts (hr : Bool) (cs : String) (a b : List FileInfo)
    (d : List MDDatabaseMeta) (h : schemaPhase hr cs a b = .ok d) :
    (∀ n, hasDB d n = a.any (fun fi => decide (fi.TableName.Schema = n))) ∧
    (∀ u, hasTable d u = b.any (fun fi => decide (fi.TableName = u))) ∧
    (∀ fi ∈ b, fi.TableName.Schema ∈ declaredSchemas a) := by
  unfold schemaPhase at h
  split at h
  · exact absurd h (by simp)
  · split at h
    · exact absurd h (by simp)
    · rename_i d1 hd1
      obtain ⟨H1, H2, H3⟩ := insertTableSchemas_ok hr cs b d1 d h
      have hD1 : ∀ n, hasDB d1 n = a.any (fun fi => decide (fi.TableName.Schema = n)) := by
        intro n
        rw [insertDBSchemas_ok_hasDB hr cs a [] d1 hd1 n]
        simp [hasDB]
      have hnil : ∀ db ∈ d1, db.Tables = [] :=
        insertDBSchemas_ok_tables_nil hr cs a [] d1 hd1
          (fun x hx => absurd hx (List.not_mem_nil x))
      refine ⟨?_, ?_, ?_⟩
      · intro n
        rw [H2 n, hD1 n]
      · intro u
        rw [H3 u, hasTable_of_tables_nil d1 hnil u]
        simp
      · intro fi hfi
        have := H1 fi hfi
        rw [hD1] at this
        exact (any_schema_iff a fi.TableName.Schema).mp this

/-- C4 amended — provided the build does not fail with a
duplicate-declaration error, a fatal missing-declaration error is raised if
and only if schema-mode is enabled and some table-schema or data record
lacks its database declaration, or some data record lacks its table
declaration, or no database-schema record exists at all; with schema-mode
disabled no missing-declaration error is ever raised. -/
theorem missing_declaration_errors (noSchema hasRouter : Bool) (cs : String)
    (a b c : List FileInfo)
    (hnodup : ∀ e, buildTopology noSchema hasRouter cs a b c = .error e →
      isDuplicate e = false) :
    (∃ e, buildTopology noSchema hasRouter cs a b c = .error e ∧
      isMissingDecl e = true) ↔
      (noSchema = false ∧
        (a = [] ∨
         (∃ fi ∈ b, fi.TableName.Schema ∉ declaredSchemas a) ∨
         (∃ fi ∈ c, fi.TableName.Schema ∉ declaredSchemas a ∨
            fi.TableName ∉ declaredTables b))) := by
  cases noSchema with
  | true =>
    obtain ⟨dbs', hok⟩ := insertTableDatas_true_ok cs c []
    have hraw : buildTopologyRaw true hasRouter cs a b c = .ok dbs' := hok
    constructor
    · rintro ⟨e, he, hm⟩
      rw [buildTopology_error_iff, hraw] at he
      simp at he
    · rintro ⟨hfi, _⟩
      simp at hfi
  | false =>
    cases a with
    | nil =>
      have herr : buildTopologyRaw false hasRouter cs [] b c =
          .error .missingDBSchemas := rfl
      constructor
      · intro _
        exact ⟨rfl, Or.inl rfl⟩
      · intro _
        exact ⟨.missingDBSchemas,
          (buildTopology_error_iff false hasRouter cs [] b c _).mpr herr, rfl⟩
    | cons x as =>
      cases hraw : buildTopologyRaw false hasRouter cs (x :: as) b c with
      | ok raw =>
        have hraw' := hraw
        unfold buildTopologyRaw at hraw'
        split at hraw'
        · exact absurd hraw' (by simp)
        · rename_i d hd
          have hd' : schemaPhase hasRouter cs (x :: as) b = .ok d := by
            simpa using hd
          obtain ⟨hD, hT, hBdecl⟩ := schemaPhase_ok_facts hasRouter cs (x :: as) b d hd'
          have hC := insertTableDatas_false_ok cs c d raw hraw'
          constructor
          · rintro ⟨e, he, hm⟩
            rw [buildTopology_error_iff, hraw] at he
            simp at he
          · rintro ⟨_, hor⟩
            exfalso
            rcases hor with hor | hor | hor
            · simp at hor
            · obtain ⟨fi, hfi, hnot⟩ := hor
              exact hnot (hBdecl fi hfi)
            · obtain ⟨fi, hfi, hor⟩ := hor
              obtain ⟨h1, h2⟩ := hC fi hfi
              rcases hor with hor | hor
              · rw [hD] at h1
                exact hor ((any_schema_iff (x :: as) fi.TableName.Schema).mp h1)
              · rw [hT] at h2
                exact hor ((any_table_iff b fi.TableName).mp h2)
      | error e0 =>
        have hbuild : buildTopology false hasRouter cs (x :: as) b c = .error e0 :=
          (buildTopology_error_iff false hasRouter cs (x :: as) b c e0).mpr hraw
        have hdup := hnodup e0 hbuild
        have hmain : isMissingDecl e0 = true ∧
            ((x :: as : List FileInfo) = [] ∨
             (∃ fi ∈ b, fi.TableName.Schema ∉ declaredSchemas (x :: as)) ∨
             (∃ fi ∈ c, fi.TableName.Schema ∉ declaredSchemas (x :: as) ∨
                fi.TableName ∉ declaredTables b)) := by
          have hraw' := hraw
          unfold buildTopologyRaw at hraw'
          split at hraw'
          · rename_i e1 hsp
            simp only [Except.error.injEq] at hraw'
            have hsp' : schemaPhase hasRouter cs (x :: as) b = .error e0 := by
              rw [← hraw']
              simpa using hsp
            unfold schemaPhase at hsp'
            split at hsp'
            · rename_i hae
              simp at hae
            · split at hsp'
              · rename_i e2 hd1
                simp only [Except.error.injEq] at hsp'
                rw [hsp'] at hd1
                have hdd := insertDBSchemas_error_dup hasRouter cs (x :: as) [] e0 hd1
                simp [hdd] at hdup
              · rename_i d1 hd1
                have hmiss : isMissingDecl e0 = true := by
                  have hk := insertTableSchemas_error_kind hasRouter cs b d1 e0 hsp'
                  cases hmq : isMissingDecl e0 with
                  | true => rfl
                  | false =>
                    rw [hmq] at hk
                    simp only [Bool.false_or] at hk
                    simp [hk] at hdup
                obtain ⟨fi, hfi, hff⟩ :=
                  insertTableSchemas_error_missing hasRouter cs b d1 e0 hsp' hmiss
                have hD1 : ∀ n, hasDB d1 n =
                    (x :: as).any (fun g => decide (g.TableName.Schema = n)) := by
                  intro n
                  rw [insertDBSchemas_ok_hasDB hasRouter cs (x :: as) [] d1 hd1 n]
                  simp [hasDB]
                refine ⟨hmiss, Or.inr (Or.inl ⟨fi, hfi, ?_⟩)⟩
                rw [hD1] at hff
                intro hmem
                rw [(any_schema_iff (x :: as) fi.TableName.Schema).mpr hmem] at hff
                exact Bool.noConfusion hff
          · rename_i d hd
            have hd' : schemaPhase hasRouter cs (x :: as) b = .ok d := by
              simpa using hd
            obtain ⟨hD, hT, _⟩ := schemaPhase_ok_facts hasRouter cs (x :: as) b d hd'
            have hmiss := insertTableDatas_error_missing_kind false cs c d e0 hraw'
            obtain ⟨fi, hfi, hor⟩ := insertTableDatas_false_error cs c d e0 hraw'
            refine ⟨hmiss, Or.inr (Or.inr ⟨fi, hfi, ?_⟩)⟩
            rcases hor with hor | hor
            · refine Or.inl ?_
              rw [hD] at hor
              intro hmem
              rw [(any_schema_iff (x :: as) fi.TableName.Schema).mpr hmem] at hor
              exact Bool.noConfusion hor
            · refine Or.inr ?_
              rw [hT] at hor
              intro hmem
              rw [(any_table_iff b fi.TableName).mpr hmem] at hor
              exact Bool.noConfusion hor
        exact ⟨fun _ => ⟨rfl, hmain.2⟩, fun _ => ⟨e0, hbuild, hmain.1⟩⟩

/-- C4 counterexample to the claim as stated: duplicated database-schema
declarations preempt the missing-declaration check.  Here schema-mode is
enabled and a data file lacks both declarations (right-hand side of the
claimed equivalence holds), yet the build fails with DuplicateDeclaration,
not MissingDeclaration. -/
theorem missing_declaration_iff_counterexample :
    buildTopology false false "utf8"
        [dbDecl "a" exMetaDBA 0, dbDecl "a" exMetaTSA 0] []
        [dataFile "b" "t" exMetaDataA 3] =
      .error (.duplicateDBSchema exMetaTSA.Path) ∧
    isMissingDecl (.duplicateDBSchema exMetaTSA.Path) = false ∧
    (false = false ∧
      (([dbDecl "a" exMetaDBA 0, dbDecl "a" exMetaTSA 0] : List FileInfo) = [] ∨
       (∃ fi ∈ ([] : List FileInfo), fi.TableName.Schema ∉
          declaredSchemas [dbDecl "a" exMetaDBA 0, dbDecl "a" exMetaTSA 0]) ∨
       (∃ fi ∈ [dataFile "b" "t" exMetaDataA 3], fi.TableName.Schema ∉
          declaredSchemas [dbDecl "a" exMetaDBA 0, dbDecl "a" exMetaTSA 0] ∨
          fi.TableName ∉ declaredTables ([] : List FileInfo)))) := by
  refine ⟨rfl, rfl, rfl, Or.inr (Or.inr ⟨dataFile "b" "t" exMetaDataA 3,
    List.mem_singleton.mpr rfl, Or.inl ?_⟩)⟩
  intro hmem
  simp [declaredSchemas, dbDecl, dataFile] at hmem

/-- C4 witness: with an empty database-schema bucket in schema-mode the
build fails with exactly a missing-declaration error, matching the
right-hand side; the no-duplicate hypothesis holds. -/
theorem missing_declaration_errors_witness :
    (∃ e, buildTopology false false "utf8" [] []
        [dataFile "b" "t" exMetaDataA 3] = .error e ∧ isMissingDecl e = true) ↔
      (false = false ∧
        (([] : List FileInfo) = [] ∨
         (∃ fi ∈ ([] : List FileInfo), fi.TableName.Schema ∉
            declaredSchemas ([] : List FileInfo)) ∨
         (∃ fi ∈ [dataFile "b" "t" exMetaDataA 3], fi.TableName.Schema ∉
            declaredSchemas ([] : List FileInfo) ∨
            fi.TableName ∉ declaredTables ([] : List FileInfo)))) :=
  missing_declaration_errors false false "utf8" [] [] [dataFile "b" "t" exMetaDataA 3]
    (fun e he => by
      have : e = LoaderError.missingDBSchemas := by
        have hx : buildTopology false false "utf8" [] []
            [dataFile "b" "t" exMetaDataA 3] = .error .missingDBSchemas := rfl
        rw [hx] at he
        exact (Except.error.injEq _ _).mp he.symm
      rw [this]
      rfl)

end Mydump
